import Mathlib

/-!
Shallow embedding of the MCP core of the ai-cad-sdk repository.

Embedded source files:
- src/services/mcp/mcpService.ts      (MCPService: queue, retries, cache keys)
- src/services/mcp/smartRouter.ts     (SmartRouter.selectModel, MCPConfigManager)
- src/services/cache/aiCache.ts       (AICache)
- packages/adapters/src/cache/semanticCacheProvider.ts (BasicSemanticCacheProvider)

Modelling conventions:
- JavaScript Map objects become association lists that keep insertion order;
  set replaces in place, delete removes the entry with the key.
- Date.now() becomes an explicit parameter named now. During one synchronous
  body the clock is treated as constant, matching the millisecond clock in a
  single tick.
- Numbers that only take integral values (timestamps, TTLs, token counts)
  become Nat; scores, similarities and costs become Rat. The floating-point
  embedding vectors and the cosine-similarity arithmetic of the semantic cache
  are abstracted into parameters (embedOf, sim), because IEEE float arithmetic
  is not faithfully representable; every property proved here is independent
  of the numeric values those parameters produce.
- Analytics event emission (aiAnalytics.trackEvent and friends) is pure
  fire-and-forget logging and is not modelled; it has no effect on any value
  the claims mention.
-/

namespace AiCadSdk

/-- The ten model identifiers of AIModelType (src/types/index.d.ts line 4). -/
inductive AIModelType where
  | claude37Sonnet
  | claude3Opus
  | claude35Sonnet
  | claude3Haiku
  | gpt4o
  | gpt4oMini
  | gpt4
  | gpt41
  | gpt4Turbo
  | gpt35Turbo
deriving DecidableEq, Repr

/-- The literal string of each model id, as it appears in the TS union type. -/
def AIModelType.name : AIModelType → String
  | .claude37Sonnet => "claude-3-7-sonnet-20250219"
  | .claude3Opus => "claude-3-opus-20240229"
  | .claude35Sonnet => "claude-3-5-sonnet-20240229"
  | .claude3Haiku => "claude-3-haiku-20240229"
  | .gpt4o => "gpt-4o"
  | .gpt4oMini => "gpt-4o-mini"
  | .gpt4 => "gpt-4"
  | .gpt41 => "gpt-4.1"
  | .gpt4Turbo => "gpt-4-turbo-preview"
  | .gpt35Turbo => "gpt-3.5-turbo"

/-- AIProviderType = claude | openai | CLAUDE | OPENAI (src/types/index.d.ts). -/
inductive AIProviderType where
  | CLAUDE
  | OPENAI
  | claude
  | openai
deriving DecidableEq, Repr

/-- cacheStrategy field of MCPRequestParams. -/
inductive CacheStrategy where
  | exact
  | semantic
  | hybrid
deriving DecidableEq, Repr

/-- priority field of MCPRequestParams and of SmartRouter.selectModel options. -/
inductive RoutePriority where
  | speed
  | quality
  | cost
deriving DecidableEq, Repr

/-- complexityLevel argument of SmartRouter.selectModel. -/
inductive ComplexityLevel where
  | low
  | medium
  | high
deriving DecidableEq, Repr

/-! JavaScript Map modelled as an association list in insertion order. -/

/-- Map.get: the value stored under a key, if present. -/
def mapGet {α : Type} (m : List (String × α)) (k : String) : Option α :=
  (m.find? (fun kv => kv.1 = k)).map (fun kv => kv.2)

/-- Map.set: replace in place if the key is present, else append. -/
def mapSet {α : Type} (m : List (String × α)) (k : String) (v : α) :
    List (String × α) :=
  match m with
  | [] => [(k, v)]
  | (k1, v1) :: rest =>
    if k1 = k then (k, v) :: rest else (k1, v1) :: mapSet rest k v

/-- Map.delete: remove the entry holding the key (keys are unique in a Map). -/
def mapDelete {α : Type} (m : List (String × α)) (k : String) :
    List (String × α) :=
  m.eraseP (fun kv => kv.1 = k)

/-- CacheItem of aiCache.ts (lines 4-9). -/
structure CacheItem (T : Type) where
  data : T
  timestamp : Nat
  expiresAt : Nat
  hash : String
deriving DecidableEq, Repr

/-- The state of one AICache instance: the entries Map plus the resolved
options (aiCache.ts lines 26-35). Persistence fields are not modelled; the
spec itself states the durable mirror must not change semantics. -/
structure AICacheState (T : Type) where
  entries : List (String × CacheItem T)
  ttl : Nat := 1800000
  maxSize : Nat := 100
deriving DecidableEq, Repr

/-- AICache.get (aiCache.ts lines 70-84): return the item unless expired;
an expired item is deleted and none is returned. The test is now > expiresAt,
strictly. -/
def AICache.get {T : Type} (s : AICacheState T) (now : Nat) (key : String) :
    Option T × AICacheState T :=
  match mapGet s.entries key with
  | none => (none, s)
  | some item =>
    if now > item.expiresAt then
      (none, { s with entries := mapDelete s.entries key })
    else
      (some item.data, s)

/-- The scan of AICache.removeOldestItem (lines 225-239): oldestTimestamp
starts at Date.now(); only items with timestamp strictly below the running
minimum are selected. -/
def removeOldestScan {T : Type} (entries : List (String × CacheItem T))
    (oldestTimestamp : Nat) (oldestKey : Option String) : Option String :=
  match entries with
  | [] => oldestKey
  | (k, item) :: rest =>
    if item.timestamp < oldestTimestamp then
      removeOldestScan rest item.timestamp (some k)
    else
      removeOldestScan rest oldestTimestamp oldestKey

/-- AICache.removeOldestItem (aiCache.ts lines 225-239). -/
def AICache.removeOldestItem {T : Type} (s : AICacheState T) (now : Nat) :
    AICacheState T :=
  match removeOldestScan s.entries now none with
  | some k => { s with entries := mapDelete s.entries k }
  | none => s

/-- AICache.set (aiCache.ts lines 89-114). customTtl || options.ttl treats a
zero customTtl as absent (JavaScript falsiness). -/
def AICache.set {T : Type} (s : AICacheState T) (now : Nat) (key : String)
    (data : T) (customTtl : Option Nat) : AICacheState T :=
  let ttl : Nat :=
    match customTtl with
    | some t => if t = 0 then s.ttl else t
    | none => s.ttl
  let s1 := if s.entries.length ≥ s.maxSize then AICache.removeOldestItem s now else s
  { s1 with entries := mapSet s1.entries key ⟨data, now, now + ttl, key⟩ }

/-- MCPRequestParams (src/types/index.d.ts lines 33-41); optional TS fields
become Option. -/
structure MCPRequestParams where
  cacheStrategy : CacheStrategy
  minSimilarity : Option Rat := none
  cacheTTL : Option Nat := none
  priority : Option RoutePriority := none
  storeResult : Option Bool := none
  multiProviderEnabled : Option Bool := none
  preferredProvider : Option AIProviderType := none
deriving DecidableEq, Repr

/-- Token usage block of AIResponse. -/
structure TokenUsage where
  promptTokens : Nat
  completionTokens : Nat
  totalTokens : Nat
deriving DecidableEq, Repr

/-- The two metadata fields executeRequest writes on a semantic cache hit
(mcpService.ts lines 272-280); the metadata bag is otherwise opaque. -/
structure ResponseMetadata where
  similarity : Option Rat := none
  cacheStrategy : Option String := none
deriving DecidableEq, Repr

/-- AIResponse (src/types/index.d.ts lines 65-84), restricted to the fields
the MCP core reads or writes. -/
structure AIResponse where
  rawResponse : Option String
  data : Option String
  error : Option String := none
  processingTime : Option Nat := none
  model : Option AIModelType := none
  provider : Option AIProviderType := none
  success : Bool
  fromCache : Option Bool := none
  fromMCP : Option Bool := none
  usage : Option TokenUsage := none
  metadata : Option ResponseMetadata := none
deriving DecidableEq, Repr

/-- savingsEstimate block of MCPResponse. -/
structure SavingsEstimate where
  tokens : Nat
  cost : Rat
  timeMs : Nat
deriving DecidableEq, Repr

/-- MCPResponse (src/types/index.d.ts lines 86-95). -/
structure MCPResponse where
  cacheHit : Bool
  similarity : Option Rat := none
  response : AIResponse
  savingsEstimate : Option SavingsEstimate := none
deriving DecidableEq, Repr

/-- AIRequest (src/types/index.d.ts lines 42-64), restricted to the fields the
MCP core reads. The parser callback returns Except: a thrown error carries its
message. -/
structure AIRequest where
  prompt : String
  model : Option AIModelType := none
  systemPrompt : Option String := none
  temperature : Option Rat := none
  maxTokens : Option Nat := none
  parseResponse : Option (String → Except String String) := none
  mcpParams : Option MCPRequestParams := none

/-- Template-literal rendering of an optional string: undefined prints as the
string undefined. -/
def optStr (o : Option String) : String :=
  match o with
  | some s => s
  | none => "undefined"

/-- Template-literal rendering of an optional model id. -/
def optModelStr (o : Option AIModelType) : String :=
  match o with
  | some m => m.name
  | none => "undefined"

/-- Template-literal rendering of an optional number. The claims proved about
the key never depend on how a number prints (both sides of every comparison
use the same temperature), so the Rat printer stands in for the JS one. -/
def optNumStr (o : Option Rat) : String :=
  match o with
  | some q => toString q
  | none => "undefined"

/-- MCPService.generateExactCacheKey (mcpService.ts lines 571-574): a template
literal joining the four fields with colons. -/
def generateExactCacheKey (r : AIRequest) : String :=
  "mcp:exact:" ++ optModelStr r.model ++ ":" ++ optNumStr r.temperature ++ ":"
    ++ optStr r.systemPrompt ++ ":" ++ r.prompt

/-- priorityLevels block of MCPOptions (mcpService.ts lines 25-29, 73-77).
TS numbers may be negative, hence Int. -/
structure PriorityLevels where
  high : Int := 100
  normal : Int := 50
  low : Int := 10
deriving DecidableEq, Repr

/-- MCPOptions with the constructor defaults (mcpService.ts lines 21-33 and
69-82). -/
structure MCPOptions where
  maxRetries : Nat := 3
  retryDelay : Nat := 1000
  timeoutMs : Nat := 30000
  priorityLevels : PriorityLevels := {}
  semanticCacheEnabled : Bool := true
  smartRoutingEnabled : Bool := true
  defaultTTL : Nat := 3600000
deriving DecidableEq, Repr

/-- One entry of MCPService.requestQueue (mcpService.ts lines 40-49). The
resolve and reject callbacks are the promise mechanics; settlement outcomes
are modelled by SettledOutcome below. -/
structure QueueEntry where
  request : AIRequest
  priority : Int
  timestamp : Nat

/-- How the promise returned by MCPService.enqueue settles. -/
inductive SettledOutcome where
  | resolved (value : MCPResponse)
  | rejected (message : String)

/-- True exactly on the rejected constructor. -/
def SettledOutcome.isRejected : SettledOutcome → Bool
  | .rejected _ => true
  | .resolved _ => false

/-- The message of a rejected outcome, if any. -/
def SettledOutcome.rejectionMessage : SettledOutcome → Option String
  | .rejected m => some m
  | .resolved _ => none

/-- The timeout callback that MCPService.enqueue registers (mcpService.ts
lines 132-144): when it fires while the request is still queued, the request
is removed and the promise is rejected with Error mentioning Request timeout. -/
def enqueueTimeoutFires (queue : List (String × QueueEntry))
    (requestId : String) : List (String × QueueEntry) × Option SettledOutcome :=
  if (mapGet queue requestId).isSome then
    (mapDelete queue requestId, some (.rejected "Request timeout"))
  else
    (queue, none)

/-- The loop state of MCPService.getNextRequest (mcpService.ts lines 184-212):
highestPriority starts at -1, oldestTimestamp at Infinity (the top of
WithTop Nat), selectedRequestId at null. Returns the three mutable variables
after the scan. -/
def getNextRequestLoop :
    List (String × QueueEntry) → Int → WithTop Nat → Option String →
      Int × WithTop Nat × Option String
  | [], hp, ot, sel => (hp, ot, sel)
  | (id, e) :: rest, hp, ot, sel =>
    if e.priority > hp then
      getNextRequestLoop rest e.priority (e.timestamp : Nat) (some id)
    else if e.priority = hp ∧ ((e.timestamp : Nat) : WithTop Nat) < ot then
      getNextRequestLoop rest hp (e.timestamp : Nat) (some id)
    else
      getNextRequestLoop rest hp ot sel

/-- MCPService.getNextRequest (mcpService.ts lines 184-212): pick the entry
found by the scan, delete it from the queue, return it together with the
remaining queue. -/
def getNextRequest (q : List (String × QueueEntry)) :
    Option (QueueEntry × List (String × QueueEntry)) :=
  match (getNextRequestLoop q (-1) ⊤ none).2.2 with
  | some id =>
    match mapGet q id with
    | some e => some (e, mapDelete q id)
    | none => none
  | none => none

/-- MCPStrategyConfig (smartRouter.ts second file section, lines 565-571). -/
structure MCPStrategyConfig where
  cacheStrategy : CacheStrategy
  minSimilarity : Rat
  cacheTTL : Nat
  priority : RoutePriority
  storeResult : Bool
deriving DecidableEq, Repr

/-- The three preset names. -/
inductive StrategyName where
  | aggressive
  | balanced
  | conservative
deriving DecidableEq, Repr

/-- The initial strategyConfigs table of MCPConfigManager (lines 578-603). -/
def defaultStrategyConfigs : StrategyName → MCPStrategyConfig
  | .aggressive =>
    { cacheStrategy := .hybrid, minSimilarity := 0.65, cacheTTL := 86400000,
      priority := .speed, storeResult := true }
  | .balanced =>
    { cacheStrategy := .semantic, minSimilarity := 0.8, cacheTTL := 43200000,
      priority := .quality, storeResult := true }
  | .conservative =>
    { cacheStrategy := .exact, minSimilarity := 0.95, cacheTTL := 3600000,
      priority := .quality, storeResult := true }

/-- The mutable state of one MCPConfigManager (lines 578-640). -/
structure MCPConfigManagerState where
  strategyConfigs : StrategyName → MCPStrategyConfig := defaultStrategyConfigs
  currentStrategy : StrategyName := .balanced
  enabled : Bool := true
  multiProviderEnabled : Bool := false
  preferredProvider : Option AIProviderType := none

/-- MCPConfigManager.setStrategy (lines 682-684). -/
def MCPConfigManager.setStrategy (st : MCPConfigManagerState)
    (s : StrategyName) : MCPConfigManagerState :=
  { st with currentStrategy := s }

/-- MCPConfigManager.getMCPParams (lines 645-651): spread the current
strategy config, then the two multi-provider fields. -/
def MCPConfigManager.getMCPParams (st : MCPConfigManagerState) :
    MCPRequestParams :=
  let c := st.strategyConfigs st.currentStrategy
  { cacheStrategy := c.cacheStrategy,
    minSimilarity := some c.minSimilarity,
    cacheTTL := some c.cacheTTL,
    priority := some c.priority,
    storeResult := some c.storeResult,
    multiProviderEnabled := some st.multiProviderEnabled,
    preferredProvider := st.preferredProvider }

/-! Semantic cache (packages/adapters/src/cache/semanticCacheProvider.ts).
Embedding vectors live in an abstract type Emb: getEmbedding is a
floating-point bag-of-words hash, and cosineSimilarity divides by float
square roots; both are passed in as parameters (embedOf, sim) because every
property proved here holds for all of their values. -/

/-- One entry of BasicSemanticCacheProvider.cache (lines 63-73). -/
structure SemanticEntry (Emb : Type) where
  embedding : Emb
  response : AIResponse
  expiresAt : Nat
  query : String
  systemPrompt : Option String := none
  model : Option AIModelType := none

/-- SemanticCacheResult (lines 8-12). -/
structure SemanticCacheResult where
  response : AIResponse
  similarity : Rat
  cacheKey : String
deriving DecidableEq, Repr

/-- The options record of findSimilar (lines 150-157). -/
structure FindSimilarOptions where
  model : Option AIModelType := none
  systemPrompt : Option String := none
  minSimilarity : Rat
deriving DecidableEq, Repr

/-- The entry survives the expiry cleanup and the model filter of the
findSimilar scan (lines 166-175): deletion happens when expiresAt < now,
and the entry is skipped when both a query model and an entry model are set
and they differ. -/
def consideredEntry {Emb : Type} (opts : FindSimilarOptions) (now : Nat)
    (e : SemanticEntry Emb) : Prop :=
  ¬ e.expiresAt < now ∧
    ¬ (opts.model.isSome ∧ e.model.isSome ∧ e.model ≠ opts.model)

instance {Emb : Type} (opts : FindSimilarOptions) (now : Nat)
    (e : SemanticEntry Emb) : Decidable (consideredEntry opts now e) := by
  unfold consideredEntry
  infer_instance

/-- The loop of findSimilar (lines 161-192): walk the entries in order,
delete expired ones, skip wrong-model ones, and keep the running
(highestSimilarity, bestMatch) pair, updating only when the similarity both
exceeds the running maximum strictly and reaches minSimilarity. Returns the
surviving entries and the final pair. -/
def findSimilarLoop {Emb : Type} (sim : Emb → Emb → Rat) (qEmb : Emb)
    (opts : FindSimilarOptions) (now : Nat) :
    List (String × SemanticEntry Emb) → Rat → Option SemanticCacheResult →
      List (String × SemanticEntry Emb) × Rat × Option SemanticCacheResult
  | [], hs, best => ([], hs, best)
  | (key, e) :: rest, hs, best =>
    if e.expiresAt < now then
      findSimilarLoop sim qEmb opts now rest hs best
    else if opts.model.isSome ∧ e.model.isSome ∧ e.model ≠ opts.model then
      let r := findSimilarLoop sim qEmb opts now rest hs best
      ((key, e) :: r.1, r.2)
    else
      let similarity := sim qEmb e.embedding
      if similarity > hs ∧ similarity ≥ opts.minSimilarity then
        let r := findSimilarLoop sim qEmb opts now rest similarity
          (some { response := e.response, similarity := similarity, cacheKey := key })
        ((key, e) :: r.1, r.2)
      else
        let r := findSimilarLoop sim qEmb opts now rest hs best
        ((key, e) :: r.1, r.2)

/-- BasicSemanticCacheProvider.findSimilar (lines 150-195): embed the query,
scan the cache, return the best match (or none) and the cache after the
expiry cleanup. -/
def findSimilar {Emb : Type} (cache : List (String × SemanticEntry Emb))
    (sim : Emb → Emb → Rat) (embedOf : String → Emb) (query : String)
    (opts : FindSimilarOptions) (now : Nat) :
    Option SemanticCacheResult × List (String × SemanticEntry Emb) :=
  let qEmb := embedOf query
  let r := findSimilarLoop sim qEmb opts now cache (-1) none
  (r.2.2, r.1)

/-- 32-bit signed wrap-around, the effect of JavaScript x & x on an integer. -/
def toInt32 (x : Int) : Int :=
  (x + 2 ^ 31) % 2 ^ 32 - 2 ^ 31

/-- BasicSemanticCacheProvider.simpleHash (lines 110-117). Char.toNat stands
in for charCodeAt (identical on the ASCII strings used here). -/
def simpleHash (s : String) (seed : Int) : Int :=
  s.data.foldl (fun hash c => toInt32 (toInt32 (hash * 2 ^ 5) - hash + c.toNat)) seed

/-- The options record of store (lines 200-208). -/
structure SemanticStoreOptions where
  model : Option AIModelType := none
  systemPrompt : Option String := none
  ttl : Nat
deriving DecidableEq, Repr

/-- BasicSemanticCacheProvider.store (lines 200-222): insert under the key
semantic:now:hash with expiresAt = now + ttl. -/
def semanticStore {Emb : Type} (cache : List (String × SemanticEntry Emb))
    (embedOf : String → Emb) (query : String) (response : AIResponse)
    (opts : SemanticStoreOptions) (now : Nat) :
    List (String × SemanticEntry Emb) :=
  let cacheKey := "semantic:" ++ toString now ++ ":" ++ toString (simpleHash query 0)
  mapSet cache cacheKey
    { embedding := embedOf query, response := response, query := query,
      systemPrompt := opts.systemPrompt, model := opts.model,
      expiresAt := now + opts.ttl }

/-! SmartRouter (src/services/mcp/smartRouter.ts). The strengths, weaknesses
and suitableFor string lists of ModelMetadata are never read by any function
modelled here and are omitted; taskComplexityFactors (lines 227-258) is dead
data never read by selectModel and is omitted too. -/

/-- ModelMetadata (smartRouter.ts lines 6-16), capabilities as a record from
capability name to 0-10 score. -/
structure ModelMetadata where
  provider : AIProviderType
  contextSize : Nat
  costPerInputToken : Rat
  costPerOutputToken : Rat
  averageResponseTimeMs : Rat
  capabilities : List (String × Rat)

/-- The modelsMetadata table (smartRouter.ts lines 22-222), in declaration
order of the capability keys. -/
def modelsMetadata : AIModelType → ModelMetadata
  | .claude37Sonnet =>
    { provider := .CLAUDE, contextSize := 200000,
      costPerInputToken := 0.00000388, costPerOutputToken := 0.00001554,
      averageResponseTimeMs := 2000,
      capabilities := [("reasoning", 9), ("creativity", 8),
        ("codeGeneration", 7), ("mathPrecision", 6), ("factualAccuracy", 8),
        ("contextUnderstanding", 9)] }
  | .claude3Opus =>
    { provider := .CLAUDE, contextSize := 180000,
      costPerInputToken := 0.000015, costPerOutputToken := 0.000044,
      averageResponseTimeMs := 3500,
      capabilities := [("reasoning", 9.5), ("creativity", 8.5),
        ("codeGeneration", 8), ("mathPrecision", 7), ("factualAccuracy", 9),
        ("contextUnderstanding", 9.5)] }
  | .claude35Sonnet =>
    { provider := .CLAUDE, contextSize := 180000,
      costPerInputToken := 0.000003, costPerOutputToken := 0.000009,
      averageResponseTimeMs := 2200,
      capabilities := [("reasoning", 7.5), ("creativity", 7),
        ("codeGeneration", 7), ("mathPrecision", 6), ("factualAccuracy", 8),
        ("contextUnderstanding", 8)] }
  | .claude3Haiku =>
    { provider := .CLAUDE, contextSize := 180000,
      costPerInputToken := 0.00000025, costPerOutputToken := 0.00000125,
      averageResponseTimeMs := 1000,
      capabilities := [("reasoning", 5), ("creativity", 5),
        ("codeGeneration", 5), ("mathPrecision", 4), ("factualAccuracy", 6),
        ("contextUnderstanding", 5)] }
  | .gpt4o =>
    { provider := .OPENAI, contextSize := 128000,
      costPerInputToken := 0.000005, costPerOutputToken := 0.000015,
      averageResponseTimeMs := 1800,
      capabilities := [("reasoning", 8.5), ("creativity", 8),
        ("codeGeneration", 9), ("mathPrecision", 8), ("factualAccuracy", 8),
        ("contextUnderstanding", 8.5)] }
  | .gpt4oMini =>
    { provider := .OPENAI, contextSize := 128000,
      costPerInputToken := 0.0000015, costPerOutputToken := 0.000006,
      averageResponseTimeMs := 1000,
      capabilities := [("reasoning", 6), ("creativity", 6),
        ("codeGeneration", 7), ("mathPrecision", 5), ("factualAccuracy", 7),
        ("contextUnderstanding", 6)] }
  | .gpt4 =>
    { provider := .OPENAI, contextSize := 8192,
      costPerInputToken := 0.00003, costPerOutputToken := 0.00006,
      averageResponseTimeMs := 3000,
      capabilities := [("reasoning", 8), ("creativity", 7.5),
        ("codeGeneration", 9), ("mathPrecision", 7.5), ("factualAccuracy", 8),
        ("contextUnderstanding", 8)] }
  | .gpt41 =>
    { provider := .OPENAI, contextSize := 16000,
      costPerInputToken := 0.000075, costPerOutputToken := 0.00012,
      averageResponseTimeMs := 4000,
      capabilities := [("reasoning", 8.5), ("creativity", 8),
        ("codeGeneration", 9.5), ("mathPrecision", 9), ("factualAccuracy", 8.5),
        ("contextUnderstanding", 8.5)] }
  | .gpt4Turbo =>
    { provider := .OPENAI, contextSize := 128000,
      costPerInputToken := 0.00001, costPerOutputToken := 0.00003,
      averageResponseTimeMs := 2500,
      capabilities := [("reasoning", 8.5), ("creativity", 8),
        ("codeGeneration", 9), ("mathPrecision", 8), ("factualAccuracy", 8.5),
        ("contextUnderstanding", 9)] }
  | .gpt35Turbo =>
    { provider := .OPENAI, contextSize := 16000,
      costPerInputToken := 0.0000005, costPerOutputToken := 0.0000015,
      averageResponseTimeMs := 800,
      capabilities := [("reasoning", 5), ("creativity", 5),
        ("codeGeneration", 6), ("mathPrecision", 4), ("factualAccuracy", 6),
        ("contextUnderstanding", 5)] }

/-- Object.entries iteration order of the modelsMetadata record. -/
def modelList : List AIModelType :=
  [.claude37Sonnet, .claude3Opus, .claude35Sonnet, .claude3Haiku, .gpt4o,
   .gpt4oMini, .gpt4, .gpt41, .gpt4Turbo, .gpt35Turbo]

/-- SmartRouter.mapCapabilityToMetadataField (lines 508-520):
mapping[capability] || capability. -/
def mapCapabilityToMetadataField (capability : String) : String :=
  (mapGet [("reasoning", "reasoning"), ("creative", "creativity"),
    ("code", "codeGeneration"), ("math", "mathPrecision"),
    ("factual", "factualAccuracy"), ("context", "contextUnderstanding")]
    capability).getD capability

/-- The defaultWeights table of getRelevantCapabilities (lines 453-460). -/
def defaultTaskWeights : List (String × Rat) :=
  [("reasoning", 0.2), ("creativity", 0.2), ("codeGeneration", 0.15),
   ("mathPrecision", 0.15), ("factualAccuracy", 0.15),
   ("contextUnderstanding", 0.15)]

/-- SmartRouter.getRelevantCapabilities (lines 451-503):
taskWeights[taskType] || defaultWeights. -/
def getRelevantCapabilities (taskType : String) : List (String × Rat) :=
  (mapGet
    [("general", defaultTaskWeights),
     ("code", [("codeGeneration", 0.5), ("reasoning", 0.2),
       ("contextUnderstanding", 0.2), ("factualAccuracy", 0.1)]),
     ("creative", [("creativity", 0.5), ("contextUnderstanding", 0.2),
       ("reasoning", 0.2), ("factualAccuracy", 0.1)]),
     ("analysis", [("reasoning", 0.4), ("factualAccuracy", 0.3),
       ("contextUnderstanding", 0.2), ("mathPrecision", 0.1)]),
     ("math", [("mathPrecision", 0.5), ("reasoning", 0.3),
       ("factualAccuracy", 0.2)]),
     ("factual", [("factualAccuracy", 0.6), ("contextUnderstanding", 0.2),
       ("reasoning", 0.2)]),
     ("cad", [("reasoning", 0.3), ("factualAccuracy", 0.3),
       ("codeGeneration", 0.2), ("contextUnderstanding", 0.2)])]
    taskType).getD defaultTaskWeights

/-- SmartRouter.calculateQualityScore (lines 420-446). A capability whose
score is absent or zero is skipped (JavaScript truthiness of
metadata.capabilities[capability]). -/
def calculateQualityScore (md : ModelMetadata) (taskType : String)
    (complexityLevel : ComplexityLevel) : Rat :=
  let relevantCapabilities := getRelevantCapabilities taskType
  let complexityMultiplier : Rat :=
    match complexityLevel with
    | .low => 0.7
    | .medium => 1.0
    | .high => 1.3
  let acc := relevantCapabilities.foldl
    (fun (acc : Rat × Rat) kv =>
      match mapGet md.capabilities kv.1 with
      | some v => if v = 0 then acc else (acc.1 + v * kv.2, acc.2 + kv.2)
      | none => acc)
    (0, 0)
  if acc.2 > 0 then acc.1 / acc.2 * complexityMultiplier else 5

/-- The weight vectors chosen by priority (lines 313-321). The initial
priorityFactors vector (0.33, 0.34, 0.33) is always overwritten because the
priority argument ranges over the closed union speed | quality | cost. -/
structure PriorityWeights where
  speed : Rat
  quality : Rat
  cost : Rat
deriving DecidableEq, Repr

/-- The weight vector for a priority (lines 315-321). -/
def priorityWeightsFor : RoutePriority → PriorityWeights
  | .speed => { speed := 0.6, quality := 0.3, cost := 0.1 }
  | .quality => { speed := 0.1, quality := 0.8, cost := 0.1 }
  | .cost => { speed := 0.2, quality := 0.2, cost := 0.6 }

/-- The per-model score record built by the selectModel loop (lines 333-401). -/
structure ModelScore where
  totalScore : Rat
  qualityScore : Rat
  speedScore : Rat
  costScore : Rat
  meetsRequirements : Bool
deriving DecidableEq, Repr

/-- The options record of SmartRouter.selectModel (lines 293-301); absent
fields take the destructuring defaults of lines 302-310. -/
structure SelectModelOptions where
  taskType : Option String := none
  promptTokenEstimate : Option Rat := none
  outputTokenEstimate : Option Rat := none
  priority : Option RoutePriority := none
  requiredCapabilities : Option (List String) := none
  preferredProvider : Option AIProviderType := none
  complexityLevel : Option ComplexityLevel := none
deriving Repr

/-- The complexity-to-threshold table of lines 324-330. -/
def requiredLevelFor : ComplexityLevel → Rat
  | .low => 3
  | .medium => 6
  | .high => 8

/-- The body of the scoring loop of selectModel for one candidate model
(lines 343-401): the capability gate, then the quality, speed and cost
scores and their weighted total. A missing capability fails the gate
(undefined >= level is false in JavaScript). -/
def scoreModelOf (options : SelectModelOptions) (m : AIModelType) : ModelScore :=
  let taskType := options.taskType.getD "general"
  let promptTokenEstimate := options.promptTokenEstimate.getD 500
  let outputTokenEstimate := options.outputTokenEstimate.getD 800
  let priority := options.priority.getD .quality
  let requiredCapabilities := options.requiredCapabilities.getD []
  let complexityLevel := options.complexityLevel.getD .medium
  let priorityWeights := priorityWeightsFor priority
  let requiredLevel := requiredLevelFor complexityLevel
  let md := modelsMetadata m
  let capabilitiesMet := requiredCapabilities.all (fun cap =>
    match mapGet md.capabilities (mapCapabilityToMetadataField cap) with
    | some v => decide (v ≥ requiredLevel)
    | none => false)
  if capabilitiesMet then
    let qualityScore := calculateQualityScore md taskType complexityLevel
    let speedScore : Rat := 10 - md.averageResponseTimeMs / 500
    let totalCostEstimate :=
      promptTokenEstimate * md.costPerInputToken +
        outputTokenEstimate * md.costPerOutputToken
    let maxCost : Rat := 0.1
    let costScore : Rat := 10 - min totalCostEstimate maxCost / maxCost * 10
    let totalScore :=
      qualityScore * priorityWeights.quality + speedScore * priorityWeights.speed +
        costScore * priorityWeights.cost
    { totalScore := totalScore, qualityScore := qualityScore,
      speedScore := speedScore, costScore := costScore,
      meetsRequirements := true }
  else
    { totalScore := 0, qualityScore := 0, speedScore := 0, costScore := 0,
      meetsRequirements := false }

/-- The modelScores map after the scoring loop (lines 343-401): one record
per candidate, in table order, with candidates of the wrong provider skipped
when preferredProvider is set. -/
def selectModelScores (options : SelectModelOptions) :
    List (AIModelType × ModelScore) :=
  modelList.filterMap (fun m =>
    match options.preferredProvider with
    | some p =>
      if (modelsMetadata m).provider ≠ p then none
      else some (m, scoreModelOf options m)
    | none => some (m, scoreModelOf options m))

/-- The final loop of selectModel (lines 403-412): walk modelScores keeping
the best meeting entry; bestModel starts at the default model and
highestScore at -1. -/
def selectBest : List (AIModelType × ModelScore) → AIModelType → Rat → AIModelType
  | [], best, _ => best
  | (m, sc) :: rest, best, hs =>
    if sc.meetsRequirements ∧ sc.totalScore > hs then
      selectBest rest m sc.totalScore
    else
      selectBest rest best hs

/-- SmartRouter.selectModel (lines 293-415). -/
def selectModel (options : SelectModelOptions) : AIModelType :=
  selectBest (selectModelScores options) .claude37Sonnet (-1)

/-- SmartRouter.getProviderForModel (lines 532-534). -/
def SmartRouter.getProviderForModel (m : AIModelType) : AIProviderType :=
  (modelsMetadata m).provider

/-- SmartRouter.estimateCost (lines 539-554); the metadata table is total on
the model enumeration, so the missing-metadata branch returning 0 is
unreachable. -/
def SmartRouter.estimateCost (m : AIModelType) (inputTokens outputTokens : Rat) :
    Rat :=
  inputTokens * (modelsMetadata m).costPerInputToken +
    outputTokens * (modelsMetadata m).costPerOutputToken

/-! MCPService.executeRequest (mcpService.ts lines 217-445) and its helpers.
The provider HTTP exchange is abstracted per attempt: fetchAt n is the
outcome of the fetch performed by the n-th call to callProviderAPI for this
request (attempts are numbered by retryCount, starting at 0). -/

/-- The outcome of the fetch inside callProviderAPI (lines 511-524): a
normalized success (the values the provider-specific JSON extraction of
lines 525-555 produces), a non-ok HTTP response carrying its status and
errorData.message, or a rejected fetch/json promise (network failure). -/
inductive FetchOutcome where
  | ok (content : String) (promptTokens completionTokens totalTokens : Nat)
  | httpError (status : Nat) (message : Option String)
  | networkError (message : String)

/-- True on the ok constructor. -/
def FetchOutcome.isOk : FetchOutcome → Bool
  | .ok _ _ _ _ => true
  | _ => false

/-- MCPService.getProviderForModel (lines 627-630). -/
def getProviderForModel (model : Option AIModelType) : AIProviderType :=
  match model with
  | none => .CLAUDE
  | some m => SmartRouter.getProviderForModel m

/-- MCPService.callProviderAPI (lines 450-566). A thrown Error is the error
case carrying the message. On a non-ok response the code throws
errorData.message || API request failed for every status: 4xx and 5xx are
not distinguished. On success the claude branch sums input and output tokens
while the openai branch reads total_tokens. All four provider spellings are
accepted (lines 477, 485), so the unsupported-provider throw of line 507 is
unreachable on this enumeration. -/
def callProviderAPI (req : AIRequest) (provider : AIProviderType)
    (outcome : FetchOutcome) : Except String AIResponse :=
  let model := req.model.getD .claude37Sonnet
  match outcome with
  | .networkError m => .error m
  | .httpError _status message => .error (message.getD "API request failed")
  | .ok content promptTokens completionTokens totalTokens =>
    let usage : TokenUsage :=
      match provider with
      | .CLAUDE | .claude =>
        { promptTokens := promptTokens, completionTokens := completionTokens,
          totalTokens := promptTokens + completionTokens }
      | .OPENAI | .openai =>
        { promptTokens := promptTokens, completionTokens := completionTokens,
          totalTokens := totalTokens }
    .ok { rawResponse := some content, data := none, success := true,
          model := some model, provider := some provider, usage := some usage }

/-- The mcpParams default of executeRequest (lines 222-226) and storeInCaches
(lines 584-588). -/
def mcpParamsOf (opts : MCPOptions) (req : AIRequest) : MCPRequestParams :=
  req.mcpParams.getD
    { cacheStrategy := .exact, cacheTTL := some opts.defaultTTL,
      storeResult := some true }

/-- mcpParams.minSimilarity || 0.8 (line 264): zero is falsy. -/
def minSimilarityOr (p : MCPRequestParams) : Rat :=
  match p.minSimilarity with
  | some q => if q = 0 then 0.8 else q
  | none => 0.8

/-- mcpParams.cacheTTL || this.options.defaultTTL (line 377): zero is falsy. -/
def cacheTTLOr (p : MCPRequestParams) (opts : MCPOptions) : Nat :=
  match p.cacheTTL with
  | some t => if t = 0 then opts.defaultTTL else t
  | none => opts.defaultTTL

/-- usage?.totalTokens || 500 (lines 307, 309): zero or absent falls back to
the default estimate. -/
def totalTokensOr500 (r : AIResponse) : Nat :=
  match r.usage with
  | some u => if u.totalTokens = 0 then 500 else u.totalTokens
  | none => 500

/-- MCPService.estimateCost (lines 616-622). -/
def mcpEstimateCost (tokens : Rat) (model : Option AIModelType) : Rat :=
  SmartRouter.estimateCost (model.getD .claude37Sonnet) (tokens * 0.7)
    (tokens * 0.3)

/-- The outcome of the cache-check section of executeRequest (lines 228-297):
the cached response with its similarity if any tier hit, plus both cache
states after the lookups. -/
structure CacheCheckResult (Emb : Type) where
  cached : Option (AIResponse × Rat)
  exact : AICacheState AIResponse
  sem : List (String × SemanticEntry Emb)

/-- The cache-check section of executeRequest (lines 228-297). An exact hit
keeps similarity 1.0 (line 230); a semantic hit records its similarity and
stamps similarity and cacheStrategy into the response metadata, creating the
bag when absent (lines 268-280). -/
def checkCaches {Emb : Type} (opts : MCPOptions) (req : AIRequest)
    (exact : AICacheState AIResponse) (sem : List (String × SemanticEntry Emb))
    (sim : Emb → Emb → Rat) (embedOf : String → Emb) (now : Nat) :
    CacheCheckResult Emb :=
  let p := mcpParamsOf opts req
  let exactStep :=
    if p.cacheStrategy = .exact ∨ p.cacheStrategy = .hybrid then
      AICache.get exact now (generateExactCacheKey req)
    else
      (none, exact)
  let cachedResult := exactStep.1
  let exact1 := exactStep.2
  if cachedResult.isNone ∧
      (p.cacheStrategy = .semantic ∨ p.cacheStrategy = .hybrid) ∧
      opts.semanticCacheEnabled then
    let semStep := findSimilar sem sim embedOf req.prompt
      { model := req.model, systemPrompt := req.systemPrompt,
        minSimilarity := minSimilarityOr p } now
    match semStep.1 with
    | some r =>
      let base := r.response
      let bag := base.metadata.getD {}
      let md : ResponseMetadata :=
        { bag with
          similarity := some r.similarity,
          cacheStrategy := some "semantic" }
      { cached := some ({ base with metadata := some md }, r.similarity),
        exact := exact1, sem := semStep.2 }
    | none => { cached := none, exact := exact1, sem := semStep.2 }
  else
    { cached := cachedResult.map (fun c => (c, 1)), exact := exact1, sem := sem }

/-- The parser step of executeRequest (lines 345-360): run the parser when
one is attached and the raw response is truthy (a non-empty string); a throw
becomes the parsing error message. Returns (parsedData, parsingError). -/
def applyParser (req : AIRequest) (response : AIResponse) :
    Option String × Option String :=
  match req.parseResponse, response.rawResponse with
  | some p, some raw =>
    if raw = "" then (none, none)
    else
      match p raw with
      | .ok d => (some d, none)
      | .error m => (none, some m)
  | _, _ => (none, none)

/-- parsingError?.message || response.error (line 367): an empty message is
falsy and falls through to the existing error. -/
def errorAfterParse (parsingError : Option String) (prev : Option String) :
    Option String :=
  match parsingError with
  | some m => if m = "" then prev else some m
  | none => prev

/-- MCPService.storeInCaches (lines 579-611). -/
def storeInCaches {Emb : Type} (opts : MCPOptions) (req : AIRequest)
    (response : AIResponse) (ttl : Nat) (exact : AICacheState AIResponse)
    (sem : List (String × SemanticEntry Emb)) (embedOf : String → Emb)
    (now : Nat) :
    AICacheState AIResponse × List (String × SemanticEntry Emb) :=
  let p := mcpParamsOf opts req
  let exact1 :=
    if p.cacheStrategy = .exact ∨ p.cacheStrategy = .hybrid then
      AICache.set exact now (generateExactCacheKey req) response (some ttl)
    else
      exact
  let sem1 :=
    if (p.cacheStrategy = .semantic ∨ p.cacheStrategy = .hybrid) ∧
        opts.semanticCacheEnabled then
      semanticStore sem embedOf req.prompt response
        { model := req.model, systemPrompt := req.systemPrompt, ttl := ttl } now
    else
      sem
  (exact1, sem1)

/-- The error Response built when the retry budget is exhausted (lines
427-433). -/
def errorResponse (message : String) : AIResponse :=
  { rawResponse := none, data := none, error := some message, success := false,
    fromMCP := some true }

/-- The value of one executeRequest activation, together with the observable
trace the claims speak about: how many provider calls were made, the backoff
delays in order, and both cache states afterwards. -/
structure ExecResult (Emb : Type) where
  result : MCPResponse
  providerCalls : Nat
  delays : List Nat
  exact : AICacheState AIResponse
  sem : List (String × SemanticEntry Emb)

/-- MCPService.executeRequest (lines 217-445). The clock is constant during
the activation, so Date.now() - startTime is 0 in both places it is read
(the spec itself flags the near-zero cache-hit timeMs as a source quirk).
On failure with retryCount < maxRetries the code sleeps
retryDelay * 2 ^ retryCount and re-enters itself with retryCount + 1
(lines 400-412); the sleep is recorded in the delays trace. -/
def executeRequest {Emb : Type} (opts : MCPOptions) (req : AIRequest)
    (fetchAt : Nat → FetchOutcome) (sim : Emb → Emb → Rat)
    (embedOf : String → Emb) (now : Nat) (exact : AICacheState AIResponse)
    (sem : List (String × SemanticEntry Emb)) (retryCount : Nat) :
    ExecResult Emb :=
  let p := mcpParamsOf opts req
  let cc := checkCaches opts req exact sem sim embedOf now
  match cc.cached with
  | some (c, similarity) =>
    let c1 := { c with fromCache := some true, fromMCP := some true }
    let savings : SavingsEstimate :=
      { tokens := totalTokensOr500 c1,
        cost := mcpEstimateCost (totalTokensOr500 c1 : Rat) req.model,
        timeMs := 0 }
    { result := { cacheHit := true, similarity := some similarity,
                  response := c1, savingsEstimate := some savings },
      providerCalls := 0, delays := [], exact := cc.exact, sem := cc.sem }
  | none =>
    match callProviderAPI req (getProviderForModel req.model) (fetchAt retryCount) with
    | .ok response =>
      let parsed := applyParser req response
      let response1 : AIResponse :=
        { response with
          data := parsed.1,
          error := errorAfterParse parsed.2 response.error,
          success := parsed.2.isNone && response.success,
          processingTime := some 0, fromMCP := some true }
      let stored :=
        if (p.storeResult.getD false) then
          storeInCaches opts req response1 (cacheTTLOr p opts) cc.exact cc.sem
            embedOf now
        else
          (cc.exact, cc.sem)
      { result := { cacheHit := false, response := response1,
                    savingsEstimate := some { tokens := 0, cost := 0, timeMs := 0 } },
        providerCalls := 1, delays := [], exact := stored.1, sem := stored.2 }
    | .error e =>
      if h : retryCount < opts.maxRetries then
        let recres := executeRequest opts req fetchAt sim embedOf now cc.exact
          cc.sem (retryCount + 1)
        { result := recres.result,
          providerCalls := recres.providerCalls + 1,
          delays := opts.retryDelay * 2 ^ retryCount :: recres.delays,
          exact := recres.exact, sem := recres.sem }
      else
        { result := { cacheHit := false, response := errorResponse e,
                      savingsEstimate := some { tokens := 0, cost := 0, timeMs := 0 } },
          providerCalls := 1, delays := [], exact := cc.exact, sem := cc.sem }
termination_by opts.maxRetries + 1 - retryCount

/-! Concrete fixtures used by counterexamples and witnesses. -/

/-- A request whose systemPrompt contains a colon. -/
def exKeyReqA : AIRequest :=
  { prompt := "c", model := some .gpt4o, temperature := some 1,
    systemPrompt := some "a:b" }

/-- A different request whose prompt absorbs the colon: same cache key. -/
def exKeyReqB : AIRequest :=
  { prompt := "b:c", model := some .gpt4o, temperature := some 1,
    systemPrompt := some "a" }

/-- A request pair agreeing on the four key fields, differing in maxTokens. -/
def c9WitA : AIRequest :=
  { prompt := "hello", model := some .claude37Sonnet, temperature := some 0.3,
    systemPrompt := some "sys", maxTokens := some 1000 }

/-- See c9WitA. -/
def c9WitB : AIRequest :=
  { prompt := "hello", model := some .claude37Sonnet, temperature := some 0.3,
    systemPrompt := some "sys", maxTokens := some 2000 }

/-- An empty string cache, then one entry stored at time 0 with TTL 10, so
expiresAt = 10. -/
def c4Stored : AICacheState String :=
  AICache.set { entries := [] } 0 "k" "v" (some 10)

/-- A response fixture. -/
def simpleResponse : AIResponse :=
  { rawResponse := some "r", data := none, success := true }

/-- An entry expired before time 5. -/
def c4OldEntry : SemanticEntry Rat :=
  { embedding := 1, response := simpleResponse, expiresAt := 3, query := "q1" }

/-- An entry live at time 5. -/
def c4NewEntry : SemanticEntry Rat :=
  { embedding := 1, response := simpleResponse, expiresAt := 100, query := "q2" }

/-- A semantic cache with the expired entry under the key old and the live
entry under the key new. -/
def c4SemCache : List (String × SemanticEntry Rat) :=
  [("old", c4OldEntry), ("new", c4NewEntry)]

/-- An AICache at its maxSize of 1 whose single entry is timestamped 5, the
very instant the next set arrives. -/
def c10State : AICacheState String :=
  { entries := [("k0", { data := "v0", timestamp := 5, expiresAt := 1800005,
                         hash := "k0" })],
    ttl := 1800000, maxSize := 1 }

/-- A minimal request. -/
def pReq : AIRequest := { prompt := "p" }

/-- A queue holding one pending request under the id req_1. -/
def timeoutQueue : List (String × QueueEntry) :=
  [("req_1", { request := pReq, priority := 50, timestamp := 0 })]

/-- A queue with one normal and two high entries; the older high entry is c. -/
def witnessQueue : List (String × QueueEntry) :=
  [("a", { request := pReq, priority := 50, timestamp := 10 }),
   ("b", { request := pReq, priority := 100, timestamp := 12 }),
   ("c", { request := pReq, priority := 100, timestamp := 11 })]

/-- A request routed to the default exact cache strategy. -/
def failReq : AIRequest := { prompt := "p", model := some .gpt4o }

/-- A provider that answers 401 with an auth message on every attempt: a 4xx
authentication failure. -/
def failFetch : Nat → FetchOutcome :=
  fun _ => .httpError 401 (some "Invalid API key")

/-- The run of executeRequest on failReq against failFetch with the default
options, empty caches, trivial embedding. -/
def failRun : ExecResult Unit :=
  executeRequest {} failReq failFetch (fun _ _ => 0) (fun _ => ()) 0
    { entries := [] } [] 0

/-- A semantic cache with one live entry of embedding 1. -/
def c3Cache : List (String × SemanticEntry Rat) :=
  [("k1", { embedding := 1, response := simpleResponse, expiresAt := 100,
            query := "q" })]

/-- Router options preferring the OPENAI provider. -/
def c8Options : SelectModelOptions := { preferredProvider := some .OPENAI }

/-! Helper lemmas about the Map model. -/

theorem mapGet_mapSet_self {α : Type} (m : List (String × α)) (k : String)
    (v : α) : mapGet (mapSet m k v) k = some v := by
  induction m with
  | nil => simp [mapGet, mapSet]
  | cons kv rest ih =>
    by_cases h : kv.1 = k
    · simp [mapSet, h, mapGet]
    · simpa [mapSet, h, mapGet, List.find?_cons] using ih

theorem mapGet_of_mem_nodupKeys {α : Type} (m : List (String × α))
    (k : String) (v : α) (hmem : (k, v) ∈ m) (hnd : (m.map Prod.fst).Nodup) :
    mapGet m k = some v := by
  induction m with
  | nil => cases hmem
  | cons kv rest ih =>
    simp only [List.map_cons, List.nodup_cons] at hnd
    rcases List.mem_cons.mp hmem with h | h
    · subst h
      simp [mapGet]
    · have hne : kv.1 ≠ k := by
        intro he
        exact hnd.1 (he ▸ List.mem_map_of_mem Prod.fst h)
      have := ih h hnd.2
      simpa [mapGet, List.find?_cons, hne] using this

theorem mem_of_mapGet_eq_some {α : Type} (m : List (String × α)) (k : String)
    (v : α) (h : mapGet m k = some v) : (k, v) ∈ m := by
  unfold mapGet at h
  cases hf : m.find? (fun kv => kv.1 = k) with
  | none => rw [hf] at h; simp at h
  | some kv =>
    rw [hf] at h
    simp at h
    have hmem := List.mem_of_find?_eq_some hf
    have hp := List.find?_some hf
    simp only [decide_eq_true_eq] at hp
    have hkv : kv = (k, v) := by
      cases kv
      simp_all
    rwa [hkv] at hmem

/-! Claim theorems. -/

/-- C9 counterexample: two requests that differ in systemPrompt and prompt
but share model and temperature produce the same exact cache key, because the
colon-joined template is not injective. -/
theorem generateExactCacheKey_collision :
    generateExactCacheKey exKeyReqA = generateExactCacheKey exKeyReqB ∧
      exKeyReqA.systemPrompt ≠ exKeyReqB.systemPrompt ∧
      exKeyReqA.prompt ≠ exKeyReqB.prompt ∧
      exKeyReqA.model = exKeyReqB.model ∧
      exKeyReqA.temperature = exKeyReqB.temperature :=
  ⟨rfl, by decide, by decide, rfl, rfl⟩

/-- C9 (amended): the exact cache key is a function of exactly the four
fields model, temperature, systemPrompt and prompt: requests agreeing on
those four agree on the key. The converse is false (see the collision
counterexample): the plain colon-joined string is not injective on requests
whose fields contain colons. -/
theorem generateExactCacheKey_of_fields (r1 r2 : AIRequest)
    (hm : r1.model = r2.model) (ht : r1.temperature = r2.temperature)
    (hs : r1.systemPrompt = r2.systemPrompt) (hp : r1.prompt = r2.prompt) :
    generateExactCacheKey r1 = generateExactCacheKey r2 := by
  simp [generateExactCacheKey, hm, ht, hs, hp]

/-- Witness for the amended C9 theorem: two requests differing only in
maxTokens share the key. -/
theorem generateExactCacheKey_of_fields_witness :
    generateExactCacheKey c9WitA = generateExactCacheKey c9WitB :=
  generateExactCacheKey_of_fields c9WitA c9WitB rfl rfl rfl rfl

/-- C10: at the failing input the cache is at its maxSize of 1 holding an
entry timestamped 5; a set at time 5 fails to evict (removeOldestItem only
selects timestamps strictly below Date.now()) and the cache grows to 2
entries, exceeding maxSize. -/
theorem aiCache_set_exceeds_maxSize :
    c10State.entries.length ≤ c10State.maxSize ∧
      (AICache.set c10State 5 "k1" "v1" none).entries.length = 2 ∧
      c10State.maxSize = 1 := by
  refine ⟨by decide, ?_, rfl⟩
  rfl

/-- C4 counterexample: an entry stored at t = 0 with TTL 10 is still
returned by AICache.get at t equal to 10 = t + TTL, because the expiry test
is the strict now > expiresAt. -/
theorem aiCache_get_at_exact_expiry :
    (AICache.get c4Stored 10 "k").1 = some "v" := by rfl

/-- C7: the preset minSimilarity values are strictly increasing from
aggressive (0.65) through balanced (0.8) to conservative (0.95), the
conservative preset uses the exact cache strategy, and after setStrategy s
on a manager whose strategyConfigs table still holds the presets,
getMCPParams returns precisely the preset for s merged with the
multi-provider settings. -/
theorem strategy_presets_ordered (st : MCPConfigManagerState) (s : StrategyName)
    (hdef : st.strategyConfigs = defaultStrategyConfigs) :
    (defaultStrategyConfigs .aggressive).minSimilarity <
        (defaultStrategyConfigs .balanced).minSimilarity ∧
      (defaultStrategyConfigs .balanced).minSimilarity <
        (defaultStrategyConfigs .conservative).minSimilarity ∧
      (defaultStrategyConfigs .aggressive).minSimilarity = 0.65 ∧
      (defaultStrategyConfigs .balanced).minSimilarity = 0.8 ∧
      (defaultStrategyConfigs .conservative).minSimilarity = 0.95 ∧
      (defaultStrategyConfigs .conservative).cacheStrategy = .exact ∧
      MCPConfigManager.getMCPParams (MCPConfigManager.setStrategy st s) =
        { cacheStrategy := (defaultStrategyConfigs s).cacheStrategy,
          minSimilarity := some (defaultStrategyConfigs s).minSimilarity,
          cacheTTL := some (defaultStrategyConfigs s).cacheTTL,
          priority := some (defaultStrategyConfigs s).priority,
          storeResult := some (defaultStrategyConfigs s).storeResult,
          multiProviderEnabled := some st.multiProviderEnabled,
          preferredProvider := st.preferredProvider } := by
  refine ⟨by norm_num [defaultStrategyConfigs], by norm_num [defaultStrategyConfigs],
    by norm_num [defaultStrategyConfigs], by norm_num [defaultStrategyConfigs],
    by norm_num [defaultStrategyConfigs], by simp [defaultStrategyConfigs], ?_⟩
  simp [MCPConfigManager.getMCPParams, MCPConfigManager.setStrategy, hdef]

/-- Witness for C7 at the default manager state and the conservative preset. -/
theorem strategy_presets_ordered_witness :
    (defaultStrategyConfigs .aggressive).minSimilarity <
        (defaultStrategyConfigs .balanced).minSimilarity ∧
      (defaultStrategyConfigs .balanced).minSimilarity <
        (defaultStrategyConfigs .conservative).minSimilarity ∧
      (defaultStrategyConfigs .aggressive).minSimilarity = 0.65 ∧
      (defaultStrategyConfigs .balanced).minSimilarity = 0.8 ∧
      (defaultStrategyConfigs .conservative).minSimilarity = 0.95 ∧
      (defaultStrategyConfigs .conservative).cacheStrategy = .exact ∧
      MCPConfigManager.getMCPParams
          (MCPConfigManager.setStrategy {} .conservative) =
        { cacheStrategy := (defaultStrategyConfigs .conservative).cacheStrategy,
          minSimilarity := some (defaultStrategyConfigs .conservative).minSimilarity,
          cacheTTL := some (defaultStrategyConfigs .conservative).cacheTTL,
          priority := some (defaultStrategyConfigs .conservative).priority,
          storeResult := some (defaultStrategyConfigs .conservative).storeResult,
          multiProviderEnabled := some false,
          preferredProvider := none } :=
  strategy_presets_ordered {} .conservative rfl

/-! Loop invariants of the findSimilar scan. Throughout, the loop state is
(surviving entries, highestSimilarity, bestMatch). -/

theorem findSimilarLoop_hs_mono {Emb : Type} (sim : Emb → Emb → Rat)
    (qEmb : Emb) (opts : FindSimilarOptions) (now : Nat) :
    ∀ (l : List (String × SemanticEntry Emb)) (hs : Rat)
      (best : Option SemanticCacheResult),
      hs ≤ (findSimilarLoop sim qEmb opts now l hs best).2.1 := by
  intro l
  induction l with
  | nil => intro hs best; simp [findSimilarLoop]
  | cons ke rest ih =>
    intro hs best
    obtain ⟨key, e⟩ := ke
    simp only [findSimilarLoop]
    split_ifs with h1 h2 h3
    · exact ih hs best
    · exact ih hs best
    · exact le_trans (le_of_lt h3.1) (ih _ _)
    · exact ih hs best

theorem findSimilarLoop_best_sim {Emb : Type} (sim : Emb → Emb → Rat)
    (qEmb : Emb) (opts : FindSimilarOptions) (now : Nat) :
    ∀ (l : List (String × SemanticEntry Emb)) (hs : Rat)
      (best : Option SemanticCacheResult),
      (∀ r, best = some r → r.similarity = hs) →
      ∀ r, (findSimilarLoop sim qEmb opts now l hs best).2.2 = some r →
        r.similarity = (findSimilarLoop sim qEmb opts now l hs best).2.1 := by
  intro l
  induction l with
  | nil =>
    intro hs best hbest r hr
    simp only [findSimilarLoop] at hr ⊢
    exact hbest r hr
  | cons ke rest ih =>
    intro hs best hbest r hr
    obtain ⟨key, e⟩ := ke
    simp only [findSimilarLoop] at hr ⊢
    split_ifs at hr ⊢ with h1 h2 h3
    · exact ih hs best hbest r hr
    · exact ih hs best hbest r hr
    · refine ih _ _ ?_ r hr
      intro r1 hr1
      cases hr1
      rfl
    · exact ih hs best hbest r hr

theorem findSimilarLoop_best_threshold {Emb : Type} (sim : Emb → Emb → Rat)
    (qEmb : Emb) (opts : FindSimilarOptions) (now : Nat) :
    ∀ (l : List (String × SemanticEntry Emb)) (hs : Rat)
      (best : Option SemanticCacheResult),
      (∀ r, best = some r → opts.minSimilarity ≤ r.similarity) →
      ∀ r, (findSimilarLoop sim qEmb opts now l hs best).2.2 = some r →
        opts.minSimilarity ≤ r.similarity := by
  intro l
  induction l with
  | nil =>
    intro hs best hbest r hr
    simp only [findSimilarLoop] at hr
    exact hbest r hr
  | cons ke rest ih =>
    intro hs best hbest r hr
    obtain ⟨key, e⟩ := ke
    simp only [findSimilarLoop] at hr
    split_ifs at hr with h1 h2 h3
    · exact ih hs best hbest r hr
    · exact ih hs best hbest r hr
    · refine ih _ _ ?_ r hr
      intro r1 hr1
      cases hr1
      exact h3.2
    · exact ih hs best hbest r hr

theorem findSimilarLoop_dominates {Emb : Type} (sim : Emb → Emb → Rat)
    (qEmb : Emb) (opts : FindSimilarOptions) (now : Nat) :
    ∀ (l : List (String × SemanticEntry Emb)) (hs : Rat)
      (best : Option SemanticCacheResult) (k : String) (e : SemanticEntry Emb),
      (k, e) ∈ l → consideredEntry opts now e →
      opts.minSimilarity ≤ sim qEmb e.embedding →
      sim qEmb e.embedding ≤ (findSimilarLoop sim qEmb opts now l hs best).2.1 := by
  intro l
  induction l with
  | nil =>
    intro hs best k e hmem
    cases hmem
  | cons ke rest ih =>
    intro hs best k e hmem hcons hth
    obtain ⟨key, e1⟩ := ke
    rcases List.mem_cons.mp hmem with hhead | htail
    · injection hhead with hk he
      subst hk
      subst he
      simp only [findSimilarLoop]
      split_ifs with hb1 hb2 hb3
      · exact absurd hb1 hcons.1
      · exact absurd hb2 hcons.2
      · exact findSimilarLoop_hs_mono sim qEmb opts now rest _ _
      · by_cases hgt : sim qEmb e.embedding > hs
        · exact absurd ⟨hgt, hth⟩ hb3
        · exact le_trans (not_lt.mp hgt)
            (findSimilarLoop_hs_mono sim qEmb opts now rest _ _)
    · simp only [findSimilarLoop]
      split_ifs with hb1 hb2 hb3
      · exact ih hs best k e htail hcons hth
      · exact ih hs best k e htail hcons hth
      · exact ih _ _ k e htail hcons hth
      · exact ih hs best k e htail hcons hth

theorem findSimilarLoop_provenance {Emb : Type} (sim : Emb → Emb → Rat)
    (qEmb : Emb) (opts : FindSimilarOptions) (now : Nat) :
    ∀ (l : List (String × SemanticEntry Emb)) (hs : Rat)
      (best : Option SemanticCacheResult) (r : SemanticCacheResult),
      (findSimilarLoop sim qEmb opts now l hs best).2.2 = some r →
      best = some r ∨ ∃ ke, ke ∈ l ∧ consideredEntry opts now ke.2 ∧
        r.cacheKey = ke.1 ∧ r.response = ke.2.response ∧
        r.similarity = sim qEmb ke.2.embedding := by
  intro l
  induction l with
  | nil =>
    intro hs best r hr
    simp only [findSimilarLoop] at hr
    exact Or.inl hr
  | cons ke rest ih =>
    intro hs best r hr
    obtain ⟨key, e⟩ := ke
    simp only [findSimilarLoop] at hr
    split_ifs at hr with h1 h2 h3
    · rcases ih hs best r hr with h | ⟨ke1, hm, hc, hf⟩
      · exact Or.inl h
      · exact Or.inr ⟨ke1, List.mem_cons_of_mem _ hm, hc, hf⟩
    · rcases ih hs best r hr with h | ⟨ke1, hm, hc, hf⟩
      · exact Or.inl h
      · exact Or.inr ⟨ke1, List.mem_cons_of_mem _ hm, hc, hf⟩
    · rcases ih _ _ r hr with h | ⟨ke1, hm, hc, hf⟩
      · cases h
        exact Or.inr ⟨(key, e), List.mem_cons_self _ _, ⟨h1, h2⟩, rfl, rfl, rfl⟩
      · exact Or.inr ⟨ke1, List.mem_cons_of_mem _ hm, hc, hf⟩
    · rcases ih hs best r hr with h | ⟨ke1, hm, hc, hf⟩
      · exact Or.inl h
      · exact Or.inr ⟨ke1, List.mem_cons_of_mem _ hm, hc, hf⟩

theorem findSimilarLoop_isSome_of_some {Emb : Type} (sim : Emb → Emb → Rat)
    (qEmb : Emb) (opts : FindSimilarOptions) (now : Nat) :
    ∀ (l : List (String × SemanticEntry Emb)) (hs : Rat)
      (r0 : SemanticCacheResult),
      ((findSimilarLoop sim qEmb opts now l hs (some r0)).2.2).isSome = true := by
  intro l
  induction l with
  | nil => intro hs r0; simp [findSimilarLoop]
  | cons ke rest ih =>
    intro hs r0
    obtain ⟨key, e⟩ := ke
    simp only [findSimilarLoop]
    split_ifs with h1 h2 h3
    · exact ih hs r0
    · exact ih hs r0
    · exact ih _ _
    · exact ih hs r0

theorem findSimilarLoop_none {Emb : Type} (sim : Emb → Emb → Rat)
    (qEmb : Emb) (opts : FindSimilarOptions) (now : Nat) :
    ∀ (l : List (String × SemanticEntry Emb)) (hs : Rat)
      (best : Option SemanticCacheResult),
      (findSimilarLoop sim qEmb opts now l hs best).2.2 = none →
      best = none ∧
        ∀ ke, ke ∈ l → consideredEntry opts now ke.2 →
          ¬(sim qEmb ke.2.embedding > hs ∧
            sim qEmb ke.2.embedding ≥ opts.minSimilarity) := by
  intro l
  induction l with
  | nil =>
    intro hs best hr
    simp only [findSimilarLoop] at hr
    exact ⟨hr, by intro ke h; cases h⟩
  | cons ke rest ih =>
    intro hs best hr
    obtain ⟨key, e⟩ := ke
    simp only [findSimilarLoop] at hr
    split_ifs at hr with h1 h2 h3
    · obtain ⟨hb, hall⟩ := ih hs best hr
      refine ⟨hb, ?_⟩
      intro ke1 hm hc
      rcases List.mem_cons.mp hm with hh | ht
      · subst hh
        exact absurd h1 hc.1
      · exact hall ke1 ht hc
    · obtain ⟨hb, hall⟩ := ih hs best hr
      refine ⟨hb, ?_⟩
      intro ke1 hm hc
      rcases List.mem_cons.mp hm with hh | ht
      · subst hh
        exact absurd h2 hc.2
      · exact hall ke1 ht hc
    · have := findSimilarLoop_isSome_of_some sim qEmb opts now rest
        (sim qEmb e.embedding)
        { response := e.response, similarity := sim qEmb e.embedding,
          cacheKey := key }
      rw [hr] at this
      cases this
    · obtain ⟨hb, hall⟩ := ih hs best hr
      refine ⟨hb, ?_⟩
      intro ke1 hm hc
      rcases List.mem_cons.mp hm with hh | ht
      · subst hh
        exact h3
      · exact hall ke1 ht hc

theorem nodupKeys_mem_unique {α : Type} (m : List (String × α)) (k : String)
    (v1 v2 : α) (h1 : (k, v1) ∈ m) (h2 : (k, v2) ∈ m)
    (hnd : (m.map Prod.fst).Nodup) : v1 = v2 := by
  have e1 := mapGet_of_mem_nodupKeys m k v1 h1 hnd
  have e2 := mapGet_of_mem_nodupKeys m k v2 h2 hnd
  rw [e1] at e2
  exact Option.some.inj e2

/-- C3: for every cache state, query and options with 0 ≤ minSimilarity (the
data-model invariant of McpParams), if findSimilar returns a result then its
similarity reaches minSimilarity, the result is one of the non-expired
model-compatible entries, and its similarity is maximal among all such
entries; if findSimilar returns none, no such entry reaches minSimilarity.
The embedding type and the similarity function are parameters, so this holds
for every value the floating-point cosine can produce. -/
theorem findSimilar_respects_threshold {Emb : Type}
    (cache : List (String × SemanticEntry Emb)) (sim : Emb → Emb → Rat)
    (embedOf : String → Emb) (query : String) (opts : FindSimilarOptions)
    (now : Nat) (hms : 0 ≤ opts.minSimilarity) :
    (∀ r, (findSimilar cache sim embedOf query opts now).1 = some r →
        opts.minSimilarity ≤ r.similarity ∧
        (∃ ke, ke ∈ cache ∧ consideredEntry opts now ke.2 ∧
          r.cacheKey = ke.1 ∧ r.response = ke.2.response ∧
          r.similarity = sim (embedOf query) ke.2.embedding) ∧
        (∀ ke, ke ∈ cache → consideredEntry opts now ke.2 →
          sim (embedOf query) ke.2.embedding ≤ r.similarity)) ∧
    ((findSimilar cache sim embedOf query opts now).1 = none →
        ∀ ke, ke ∈ cache → consideredEntry opts now ke.2 →
          sim (embedOf query) ke.2.embedding < opts.minSimilarity) := by
  constructor
  · intro r hr
    simp only [findSimilar] at hr
    have hnil : ∀ r1 : SemanticCacheResult,
        (none : Option SemanticCacheResult) = some r1 → False := by
      intro r1 h
      cases h
    have hth := findSimilarLoop_best_threshold sim (embedOf query) opts now
      cache (-1) none (fun r1 h => absurd h (fun hh => hnil r1 hh)) r hr
    have hsim := findSimilarLoop_best_sim sim (embedOf query) opts now
      cache (-1) none (fun r1 h => absurd h (fun hh => hnil r1 hh)) r hr
    have hprov := findSimilarLoop_provenance sim (embedOf query) opts now
      cache (-1) none r hr
    rcases hprov with h | hex
    · exact absurd h (fun hh => hnil r hh)
    · refine ⟨hth, hex, ?_⟩
      intro ke hm hc
      by_cases hq : opts.minSimilarity ≤ sim (embedOf query) ke.2.embedding
      · rw [hsim]
        exact findSimilarLoop_dominates sim (embedOf query) opts now cache
          (-1) none ke.1 ke.2 hm hc hq
      · exact le_trans (le_of_lt (not_le.mp hq)) hth
  · intro hr ke hm hc
    simp only [findSimilar] at hr
    obtain ⟨-, hall⟩ := findSimilarLoop_none sim (embedOf query) opts now
      cache (-1) none hr
    have hke := hall ke hm hc
    by_contra hge
    have hge1 : opts.minSimilarity ≤ sim (embedOf query) ke.2.embedding :=
      not_lt.mp hge
    have hgt : sim (embedOf query) ke.2.embedding > -1 :=
      lt_of_lt_of_le (by norm_num) (le_trans hms hge1)
    exact hke ⟨hgt, hge1⟩

/-- Witness for C3 at a one-entry cache with product similarity: the entry
has similarity 1 against the constant embedding, the floor is 0.5. -/
theorem findSimilar_respects_threshold_witness :
    (∀ r, (findSimilar c3Cache (fun a b => a * b) (fun _ => 1) "q"
        { minSimilarity := 0.5 } 5).1 = some r →
        (0.5 : Rat) ≤ r.similarity ∧
        (∃ ke, ke ∈ c3Cache ∧
          consideredEntry { minSimilarity := 0.5 } 5 ke.2 ∧
          r.cacheKey = ke.1 ∧ r.response = ke.2.response ∧
          r.similarity = (fun (a b : Rat) => a * b) 1 ke.2.embedding) ∧
        (∀ ke, ke ∈ c3Cache →
          consideredEntry { minSimilarity := 0.5 } 5 ke.2 →
          (fun (a b : Rat) => a * b) 1 ke.2.embedding ≤ r.similarity)) ∧
    ((findSimilar c3Cache (fun a b => a * b) (fun _ => 1) "q"
        { minSimilarity := 0.5 } 5).1 = none →
        ∀ ke, ke ∈ c3Cache →
          consideredEntry { minSimilarity := 0.5 } 5 ke.2 →
          (fun (a b : Rat) => a * b) 1 ke.2.embedding < 0.5) :=
  findSimilar_respects_threshold c3Cache (fun a b => a * b) (fun _ => 1) "q"
    { minSimilarity := 0.5 } 5 (by norm_num)

/-- C4 (amended): expiry takes effect strictly after t + TTL. Both lookup
tiers use a strict comparison, so an entry stored at t with TTL τ is still
retrievable at exactly t' = t + τ (see the counterexample) but unretrievable
at every t' > t + τ: AICache.get returns none, and findSimilar never returns
an entry whose expiresAt lies strictly before the probe time. -/
theorem ttl_expiry_strict {T Emb : Type} :
    (∀ (s : AICacheState T) (t τ : Nat) (k : String) (v : T) (t1 : Nat),
        0 < τ → t + τ < t1 →
        (AICache.get (AICache.set s t k v (some τ)) t1 k).1 = none) ∧
    (∀ (cache : List (String × SemanticEntry Emb)) (sim : Emb → Emb → Rat)
        (embedOf : String → Emb) (query : String) (opts : FindSimilarOptions)
        (now : Nat) (k : String) (e : SemanticEntry Emb)
        (r : SemanticCacheResult),
        (k, e) ∈ cache → (cache.map Prod.fst).Nodup → e.expiresAt < now →
        (findSimilar cache sim embedOf query opts now).1 = some r →
        r.cacheKey ≠ k) := by
  constructor
  · intro s t τ k v t1 hτ hlt
    have hτ0 : ¬ τ = 0 := by omega
    simp only [AICache.set, hτ0, if_false, AICache.get, mapGet_mapSet_self]
    simp only [show t1 > t + τ from hlt, if_true]
  · intro cache sim embedOf query opts now k e r hmem hnd hexp hres hkey
    simp only [findSimilar] at hres
    have hprov := findSimilarLoop_provenance sim (embedOf query) opts now
      cache (-1) none r hres
    rcases hprov with h | ⟨ke, hm, hc, hk, -, -⟩
    · cases h
    · rw [hkey] at hk
      have hke : ke = (k, ke.2) := by
        cases ke
        simp_all
      rw [hke] at hm
      have := nodupKeys_mem_unique cache k e ke.2 hmem hm hnd
      rw [← this] at hc
      exact hc.1 hexp

/-- Witness for the amended C4 theorem: the exact-cache half at an entry
stored at 0 with TTL 10 probed at 11, and the semantic half at the two-entry
cache where the live entry under the key new is returned while the expired
entry under the key old is skipped. -/
theorem ttl_expiry_strict_witness :
    (AICache.get (AICache.set ({ entries := [] } : AICacheState String) 0 "k"
        "v" (some 10)) 11 "k").1 = none ∧
    ("new" : String) ≠ "old" := by
  constructor
  · exact (@ttl_expiry_strict String Rat).1
      { entries := [] } 0 10 "k" "v" 11 (by norm_num) (by norm_num)
  · exact (@ttl_expiry_strict String Rat).2 c4SemCache
      (fun a b => a * b) (fun _ => 1) "q" { minSimilarity := 0.5 } 5 "old"
      c4OldEntry { response := simpleResponse, similarity := 1,
                   cacheKey := "new" }
      (by simp [c4SemCache]) (by simp [c4SemCache])
      (by norm_num [c4OldEntry]) (by
        simp only [findSimilar, c4SemCache, findSimilarLoop, c4OldEntry,
          c4NewEntry]
        norm_num)

/-! The getNextRequest scan invariant. The loop state (hp, ot, sel) either
still holds the sentinels (and then every entry seen so far has priority
strictly below -1), or sel names a seen entry attaining hp as the maximal
seen priority and ot as the least timestamp among seen entries of that
priority. -/

theorem getNextRequestLoop_inv :
    ∀ (l seen : List (String × QueueEntry)) (hp : Int) (ot : WithTop Nat)
      (sel : Option String),
      ((hp = -1 ∧ ot = ⊤ ∧ sel = none ∧ ∀ p ∈ seen, p.2.priority < -1) ∨
        (∃ id e, sel = some id ∧ (id, e) ∈ seen ∧ e.priority = hp ∧
          ((e.timestamp : Nat) : WithTop Nat) = ot ∧
          (∀ p ∈ seen, p.2.priority ≤ hp) ∧
          (∀ p ∈ seen, p.2.priority = hp →
            ot ≤ ((p.2.timestamp : Nat) : WithTop Nat)))) →
      ((getNextRequestLoop l hp ot sel).1 = -1 ∧
          (getNextRequestLoop l hp ot sel).2.1 = ⊤ ∧
          (getNextRequestLoop l hp ot sel).2.2 = none ∧
          ∀ p ∈ seen ++ l, p.2.priority < -1) ∨
        (∃ id e, (getNextRequestLoop l hp ot sel).2.2 = some id ∧
          (id, e) ∈ seen ++ l ∧
          e.priority = (getNextRequestLoop l hp ot sel).1 ∧
          ((e.timestamp : Nat) : WithTop Nat) =
            (getNextRequestLoop l hp ot sel).2.1 ∧
          (∀ p ∈ seen ++ l, p.2.priority ≤ (getNextRequestLoop l hp ot sel).1) ∧
          (∀ p ∈ seen ++ l, p.2.priority = (getNextRequestLoop l hp ot sel).1 →
            (getNextRequestLoop l hp ot sel).2.1 ≤
              ((p.2.timestamp : Nat) : WithTop Nat))) := by
  intro l
  induction l with
  | nil =>
    intro seen hp ot sel hinv
    simpa [getNextRequestLoop] using hinv
  | cons ke rest ih =>
    intro seen hp ot sel hinv
    obtain ⟨id0, e0⟩ := ke
    rw [List.append_cons seen (id0, e0) rest]
    simp only [getNextRequestLoop]
    split_ifs with hA hB
    · refine ih (seen ++ [(id0, e0)]) e0.priority (e0.timestamp : Nat)
        (some id0) (Or.inr ⟨id0, e0, rfl, ?_, rfl, rfl, ?_, ?_⟩)
      · exact List.mem_append_right seen (List.mem_singleton_self _)
      · intro p hp1
        rcases List.mem_append.mp hp1 with hseen | hhead
        · rcases hinv with ⟨hhp, -, -, hlt⟩ | ⟨id1, e1, -, -, -, -, hle, -⟩
          · exact le_of_lt (lt_trans (hlt p hseen) (hhp ▸ hA))
          · exact le_of_lt (lt_of_le_of_lt (hle p hseen) hA)
        · rw [List.mem_singleton.mp hhead]
      · intro p hp1 hpe
        rcases List.mem_append.mp hp1 with hseen | hhead
        · rcases hinv with ⟨hhp, -, -, hlt⟩ | ⟨id1, e1, -, -, -, -, hle, -⟩
          · exact absurd (hpe ▸ hlt p hseen) (by simp [hhp ▸ hA, not_lt, le_of_lt])
          · exact absurd (hpe ▸ hle p hseen) (not_le.mpr hA)
        · rw [List.mem_singleton.mp hhead]
    · obtain ⟨hBp, hBt⟩ := hB
      rcases hinv with ⟨hhp, hot, -, hlt⟩ | ⟨id1, e1, -, -, -, -, hle, htm⟩
      · refine ih (seen ++ [(id0, e0)]) hp (e0.timestamp : Nat) (some id0)
          (Or.inr ⟨id0, e0, rfl, ?_, hBp, rfl, ?_, ?_⟩)
        · exact List.mem_append_right seen (List.mem_singleton_self _)
        · intro p hp1
          rcases List.mem_append.mp hp1 with hseen | hhead
          · exact le_of_lt (lt_of_lt_of_le (hlt p hseen) (by rw [hhp]))
          · rw [List.mem_singleton.mp hhead]
            exact le_of_eq hBp
        · intro p hp1 hpe
          rcases List.mem_append.mp hp1 with hseen | hhead
          · exact absurd (hpe ▸ hlt p hseen) (by simp [hhp])
          · rw [List.mem_singleton.mp hhead]
      · refine ih (seen ++ [(id0, e0)]) hp (e0.timestamp : Nat) (some id0)
          (Or.inr ⟨id0, e0, rfl, ?_, hBp, rfl, ?_, ?_⟩)
        · exact List.mem_append_right seen (List.mem_singleton_self _)
        · intro p hp1
          rcases List.mem_append.mp hp1 with hseen | hhead
          · exact hle p hseen
          · rw [List.mem_singleton.mp hhead]
            exact le_of_eq hBp
        · intro p hp1 hpe
          rcases List.mem_append.mp hp1 with hseen | hhead
          · exact le_trans (le_of_lt hBt) (htm p hseen hpe)
          · rw [List.mem_singleton.mp hhead]
    · rcases hinv with ⟨hhp, hot, hsel, hlt⟩ | ⟨id1, e1, hsel, hm1, he1, ht1, hle, htm⟩
      · refine ih (seen ++ [(id0, e0)]) hp ot sel
          (Or.inl ⟨hhp, hot, hsel, ?_⟩)
        intro p hp1
        rcases List.mem_append.mp hp1 with hseen | hhead
        · exact hlt p hseen
        · rw [List.mem_singleton.mp hhead]
          show e0.priority < -1
          have h1 : ¬ e0.priority > hp := hA
          have h2 : e0.priority ≠ -1 := by
            intro hcp
            refine hB ⟨by rw [hcp, hhp], ?_⟩
            rw [hot]
            exact WithTop.coe_lt_top _
          rw [hhp] at h1
          omega
      · refine ih (seen ++ [(id0, e0)]) hp ot sel
          (Or.inr ⟨id1, e1, hsel, List.mem_append_left _ hm1, he1, ht1, ?_, ?_⟩)
        · intro p hp1
          rcases List.mem_append.mp hp1 with hseen | hhead
          · exact hle p hseen
          · rw [List.mem_singleton.mp hhead]
            exact not_lt.mp hA
        · intro p hp1 hpe
          rcases List.mem_append.mp hp1 with hseen | hhead
          · exact htm p hseen hpe
          · rw [List.mem_singleton.mp hhead]
            rw [List.mem_singleton.mp hhead] at hpe
            exact not_lt.mp (fun hcon => hB ⟨hpe, hcon⟩)

/-- C6: on every non-empty queue whose entries carry non-negative priority
weights (true for the default weights high=100, normal=50, low=10, and any
weights the scan sentinel -1 does not mask), getNextRequest removes and
returns an entry of maximal priority, and among the entries of that maximal
priority one with the least submission timestamp; the constructor defaults
order high over normal over low. -/
theorem getNextRequest_priority_fifo (q : List (String × QueueEntry))
    (hne : q ≠ []) (hpos : ∀ p ∈ q, 0 ≤ p.2.priority)
    (hnd : (q.map Prod.fst).Nodup) :
    (∃ id e, getNextRequest q = some (e, mapDelete q id) ∧ (id, e) ∈ q ∧
      (∀ p ∈ q, p.2.priority ≤ e.priority) ∧
      (∀ p ∈ q, p.2.priority = e.priority → e.timestamp ≤ p.2.timestamp)) ∧
    ({} : PriorityLevels).high = 100 ∧ ({} : PriorityLevels).normal = 50 ∧
    ({} : PriorityLevels).low = 10 ∧
    ({} : PriorityLevels).low < ({} : PriorityLevels).normal ∧
    ({} : PriorityLevels).normal < ({} : PriorityLevels).high := by
  refine ⟨?_, rfl, rfl, rfl, by decide, by decide⟩
  have hinv := getNextRequestLoop_inv q [] (-1) ⊤ none
    (Or.inl ⟨rfl, rfl, rfl, by intro p h; cases h⟩)
  simp only [List.nil_append] at hinv
  rcases hinv with ⟨-, -, -, hall⟩ | ⟨id, e, hsel, hm, he, ht, hle, htm⟩
  · obtain ⟨p, hp1⟩ := List.exists_mem_of_ne_nil q hne
    exact absurd (hpos p hp1) (not_le.mpr (lt_of_lt_of_le (hall p hp1)
      (by norm_num)))
  · refine ⟨id, e, ?_, hm, ?_, ?_⟩
    · simp only [getNextRequest, hsel,
        mapGet_of_mem_nodupKeys q id e hm hnd]
    · intro p hp1
      rw [he]
      exact hle p hp1
    · intro p hp1 hpe
      have := htm p hp1 (by rw [hpe, he])
      rw [← ht] at this
      exact_mod_cast this

/-- Witness for C6: on the three-entry queue the returned entry is the older
of the two high-priority entries (priority 100, timestamp 11, id c). -/
theorem getNextRequest_priority_fifo_witness :
    (∃ id e, getNextRequest witnessQueue = some (e, mapDelete witnessQueue id) ∧
      (id, e) ∈ witnessQueue ∧
      (∀ p ∈ witnessQueue, p.2.priority ≤ e.priority) ∧
      (∀ p ∈ witnessQueue, p.2.priority = e.priority →
        e.timestamp ≤ p.2.timestamp)) ∧
    ({} : PriorityLevels).high = 100 ∧ ({} : PriorityLevels).normal = 50 ∧
    ({} : PriorityLevels).low = 10 ∧
    ({} : PriorityLevels).low < ({} : PriorityLevels).normal ∧
    ({} : PriorityLevels).normal < ({} : PriorityLevels).high :=
  getNextRequest_priority_fifo witnessQueue (by simp [witnessQueue])
    (by intro p hp1; fin_cases hp1 <;> norm_num)
    (by simp [witnessQueue])

/-! Lemmas about the selectModel scoring and final loops. -/

theorem mem_modelList (m : AIModelType) : m ∈ modelList := by
  cases m <;> simp [modelList]

theorem selectModelScores_provider (options : SelectModelOptions)
    (P : AIProviderType) (h : options.preferredProvider = some P) :
    ∀ ms ∈ selectModelScores options, (modelsMetadata ms.1).provider = P := by
  intro ms hms
  simp only [selectModelScores, h, List.mem_filterMap] at hms
  obtain ⟨m, -, hm⟩ := hms
  by_cases hp : (modelsMetadata m).provider = P
  · rw [if_neg (by simp [hp])] at hm
    cases hm
    exact hp
  · rw [if_pos hp] at hm
    cases hm

theorem mem_selectModelScores (options : SelectModelOptions)
    (P : AIProviderType) (m : AIModelType)
    (h : options.preferredProvider = some P)
    (hprov : (modelsMetadata m).provider = P) :
    (m, scoreModelOf options m) ∈ selectModelScores options := by
  simp only [selectModelScores, h, List.mem_filterMap]
  exact ⟨m, mem_modelList m, by rw [if_neg (by simp [hprov])]⟩

theorem selectBest_eq_or_mem :
    ∀ (l : List (AIModelType × ModelScore)) (b : AIModelType) (hs : Rat),
      selectBest l b hs = b ∨ selectBest l b hs ∈ l.map Prod.fst := by
  intro l
  induction l with
  | nil => intro b hs; exact Or.inl rfl
  | cons ms rest ih =>
    intro b hs
    obtain ⟨m, sc⟩ := ms
    simp only [selectBest]
    split_ifs with h
    · rcases ih m sc.totalScore with h1 | h1
      · exact Or.inr (by simp [h1])
      · exact Or.inr (by simp [List.mem_cons_of_mem, h1])
    · rcases ih b hs with h1 | h1
      · exact Or.inl h1
      · exact Or.inr (by simp [List.mem_cons_of_mem, h1])

theorem selectBest_mem_of_exists :
    ∀ (l : List (AIModelType × ModelScore)) (b : AIModelType) (hs : Rat),
      (∃ ms ∈ l, ms.2.meetsRequirements = true ∧ hs < ms.2.totalScore) →
      selectBest l b hs ∈ l.map Prod.fst := by
  intro l
  induction l with
  | nil =>
    intro b hs hex
    obtain ⟨ms, hm, -⟩ := hex
    cases hm
  | cons ms0 rest ih =>
    intro b hs hex
    obtain ⟨m, sc⟩ := ms0
    simp only [selectBest]
    split_ifs with h
    · rcases selectBest_eq_or_mem rest m sc.totalScore with h1 | h1
      · simp [h1]
      · simp [List.mem_cons_of_mem, h1]
    · obtain ⟨ms, hm, hmeet, hlt⟩ := hex
      rcases List.mem_cons.mp hm with hh | ht
      · subst hh
        exact absurd ⟨hmeet, hlt⟩ h
      · have := ih b hs ⟨ms, ht, hmeet, hlt⟩
        simp only [List.map_cons, List.mem_cons]
        exact Or.inr this

/-- C8: whenever preferredProvider is P and some model of provider P passes
the capability gate with a positive total score, the model selectModel
returns belongs to provider P. -/
theorem selectModel_provider_gating (options : SelectModelOptions)
    (P : AIProviderType) (hP : options.preferredProvider = some P)
    (helig : ∃ m, (modelsMetadata m).provider = P ∧
      (scoreModelOf options m).meetsRequirements = true ∧
      0 < (scoreModelOf options m).totalScore) :
    (modelsMetadata (selectModel options)).provider = P := by
  obtain ⟨m, hprov, hmeets, hpos⟩ := helig
  have hmem := mem_selectModelScores options P m hP hprov
  have hsel : selectModel options ∈ (selectModelScores options).map Prod.fst :=
    selectBest_mem_of_exists _ _ _
      ⟨(m, scoreModelOf options m), hmem, hmeets, lt_trans (by norm_num) hpos⟩
  obtain ⟨ms, hms, hfst⟩ := List.mem_map.mp hsel
  rw [← hfst]
  exact selectModelScores_provider options P hP ms hms

/-- Witness for C8: with preferredProvider OPENAI and otherwise default
options, gpt-4o is eligible (no required capabilities, positive score), and
the selected model indeed belongs to OPENAI. -/
theorem selectModel_provider_gating_witness :
    (modelsMetadata (selectModel c8Options)).provider = .OPENAI :=
  selectModel_provider_gating c8Options .OPENAI rfl
    ⟨.gpt4o, rfl, by simp [scoreModelOf, c8Options], by
      simp +decide only [scoreModelOf, c8Options, calculateQualityScore,
        getRelevantCapabilities, defaultTaskWeights, modelsMetadata, mapGet,
        priorityWeightsFor, requiredLevelFor, List.find?, List.foldl,
        Option.map, Option.getD, List.all]
      norm_num⟩

/-! Branch equations and invariants of executeRequest. -/

theorem callProviderAPI_error_of_not_ok (req : AIRequest) (p : AIProviderType)
    (o : FetchOutcome) (h : o.isOk = false) :
    ∃ m, callProviderAPI req p o = .error m := by
  cases o with
  | ok content pt ct tt => simp [FetchOutcome.isOk] at h
  | httpError s msg => exact ⟨msg.getD "API request failed", rfl⟩
  | networkError m => exact ⟨m, rfl⟩

theorem checkCaches_empty {Emb : Type} (opts : MCPOptions) (req : AIRequest)
    (exact : AICacheState AIResponse) (sim : Emb → Emb → Rat)
    (embedOf : String → Emb) (now : Nat) (hx : exact.entries = []) :
    checkCaches opts req exact ([] : List (String × SemanticEntry Emb)) sim
        embedOf now =
      { cached := none, exact := exact, sem := [] } := by
  have hget : AICache.get exact now (generateExactCacheKey req) =
      (none, exact) := by
    simp [AICache.get, mapGet, hx]
  simp only [checkCaches, hget, ite_self]
  split_ifs with h
  · simp [findSimilar, findSimilarLoop]
  · simp

theorem executeRequest_retry_projs {Emb : Type} (opts : MCPOptions)
    (req : AIRequest) (fetchAt : Nat → FetchOutcome) (sim : Emb → Emb → Rat)
    (embedOf : String → Emb) (now : Nat) (exact : AICacheState AIResponse)
    (sem : List (String × SemanticEntry Emb)) (rc : Nat) (e : String)
    (hnone : (checkCaches opts req exact sem sim embedOf now).cached = none)
    (herr : callProviderAPI req (getProviderForModel req.model) (fetchAt rc) =
      .error e)
    (hlt : rc < opts.maxRetries) :
    (executeRequest opts req fetchAt sim embedOf now exact sem rc).result =
      (executeRequest opts req fetchAt sim embedOf now
        (checkCaches opts req exact sem sim embedOf now).exact
        (checkCaches opts req exact sem sim embedOf now).sem (rc + 1)).result ∧
    (executeRequest opts req fetchAt sim embedOf now exact sem
        rc).providerCalls =
      (executeRequest opts req fetchAt sim embedOf now
        (checkCaches opts req exact sem sim embedOf now).exact
        (checkCaches opts req exact sem sim embedOf now).sem
        (rc + 1)).providerCalls + 1 ∧
    (executeRequest opts req fetchAt sim embedOf now exact sem rc).delays =
      opts.retryDelay * 2 ^ rc :: (executeRequest opts req fetchAt sim embedOf
        now (checkCaches opts req exact sem sim embedOf now).exact
        (checkCaches opts req exact sem sim embedOf now).sem (rc + 1)).delays := by
  rw [executeRequest]
  simp only [hnone, herr, hlt, dif_pos]
  refine ⟨?_, ?_, ?_⟩ <;> trivial

theorem executeRequest_exhaust_projs {Emb : Type} (opts : MCPOptions)
    (req : AIRequest) (fetchAt : Nat → FetchOutcome) (sim : Emb → Emb → Rat)
    (embedOf : String → Emb) (now : Nat) (exact : AICacheState AIResponse)
    (sem : List (String × SemanticEntry Emb)) (rc : Nat) (e : String)
    (hnone : (checkCaches opts req exact sem sim embedOf now).cached = none)
    (herr : callProviderAPI req (getProviderForModel req.model) (fetchAt rc) =
      .error e)
    (hge : ¬ rc < opts.maxRetries) :
    (executeRequest opts req fetchAt sim embedOf now exact sem rc).result =
      { cacheHit := false, response := errorResponse e,
        savingsEstimate := some { tokens := 0, cost := 0, timeMs := 0 } } ∧
    (executeRequest opts req fetchAt sim embedOf now exact sem
        rc).providerCalls = 1 ∧
    (executeRequest opts req fetchAt sim embedOf now exact sem rc).delays
        = [] := by
  rw [executeRequest]
  simp only [hnone, herr, hge, dif_neg, not_false_iff]
  refine ⟨?_, ?_, ?_⟩ <;> trivial

theorem executeRequest_cached_projs {Emb : Type} (opts : MCPOptions)
    (req : AIRequest) (fetchAt : Nat → FetchOutcome) (sim : Emb → Emb → Rat)
    (embedOf : String → Emb) (now : Nat) (exact : AICacheState AIResponse)
    (sem : List (String × SemanticEntry Emb)) (rc : Nat)
    (cs : AIResponse × Rat)
    (hcc : (checkCaches opts req exact sem sim embedOf now).cached = some cs) :
    (executeRequest opts req fetchAt sim embedOf now exact sem rc).providerCalls
        = 0 ∧
      (executeRequest opts req fetchAt sim embedOf now exact sem rc).delays
        = [] := by
  obtain ⟨c, similarity⟩ := cs
  rw [executeRequest]
  simp [hcc]

theorem executeRequest_ok_projs {Emb : Type} (opts : MCPOptions)
    (req : AIRequest) (fetchAt : Nat → FetchOutcome) (sim : Emb → Emb → Rat)
    (embedOf : String → Emb) (now : Nat) (exact : AICacheState AIResponse)
    (sem : List (String × SemanticEntry Emb)) (rc : Nat)
    (response : AIResponse)
    (hnone : (checkCaches opts req exact sem sim embedOf now).cached = none)
    (hok : callProviderAPI req (getProviderForModel req.model) (fetchAt rc) =
      .ok response) :
    (executeRequest opts req fetchAt sim embedOf now exact sem rc).providerCalls
        = 1 ∧
      (executeRequest opts req fetchAt sim embedOf now exact sem rc).delays
        = [] := by
  rw [executeRequest]
  simp [hnone, hok]

/-- The trace invariant of the whole retry recursion: starting at retryCount,
at most 1 + (maxRetries - retryCount) provider calls are made, and the delay
list is exactly the backoff schedule retryDelay * 2 ^ (retryCount + i). -/
theorem executeRequest_trace {Emb : Type} (opts : MCPOptions)
    (req : AIRequest) (fetchAt : Nat → FetchOutcome) (sim : Emb → Emb → Rat)
    (embedOf : String → Emb) (now : Nat) :
    ∀ (exact : AICacheState AIResponse)
      (sem : List (String × SemanticEntry Emb)) (rc : Nat),
      (executeRequest opts req fetchAt sim embedOf now exact sem
          rc).providerCalls ≤ 1 + (opts.maxRetries - rc) ∧
        (executeRequest opts req fetchAt sim embedOf now exact sem rc).delays =
          (List.range (executeRequest opts req fetchAt sim embedOf now exact
            sem rc).delays.length).map
            (fun i => opts.retryDelay * 2 ^ (rc + i)) := by
  intro exact sem rc
  induction exact, sem, rc using executeRequest.induct opts req fetchAt sim
    embedOf now with
  | case1 exact sem rc cc c similarity hcc =>
    obtain ⟨h1, h2⟩ := executeRequest_cached_projs opts req fetchAt sim embedOf
      now exact sem rc (c, similarity) hcc
    rw [h1, h2]
    simp
  | case2 exact sem rc cc hnone response hok =>
    obtain ⟨h1, h2⟩ := executeRequest_ok_projs opts req fetchAt sim embedOf
      now exact sem rc response hnone hok
    rw [h1, h2]
    simp
  | case3 exact sem rc cc hnone e herr hlt ih =>
    have hccv : cc = checkCaches opts req exact sem sim embedOf now := rfl
    rw [hccv] at hnone ih
    obtain ⟨-, hcalls, hdelays⟩ := executeRequest_retry_projs opts req fetchAt
      sim embedOf now exact sem rc e hnone herr hlt
    obtain ⟨ih1, ih2⟩ := ih
    refine ⟨by rw [hcalls]; omega, ?_⟩
    rw [hdelays, List.length_cons, List.range_succ_eq_map, List.map_cons,
      List.map_map, List.cons.injEq]
    constructor
    · norm_num
    · conv_lhs => rw [ih2]
      refine List.map_congr_left ?_
      intro i hi
      simp only [Function.comp_apply]
      congr 2
      omega
  | case4 exact sem rc cc hnone e herr hge =>
    have hccv : cc = checkCaches opts req exact sem sim embedOf now := rfl
    rw [hccv] at hnone
    obtain ⟨-, hcalls, hdelays⟩ := executeRequest_exhaust_projs opts req
      fetchAt sim embedOf now exact sem rc e hnone herr hge
    rw [hcalls, hdelays]
    refine ⟨by omega, by simp⟩

/-- C1: for every request, options, cache state and provider behaviour, one
call of executeRequest performs at most 1 + maxRetries provider calls (the
retry recursion is total, by the decreasing measure maxRetries + 1 -
retryCount), and the backoff delay slept before the attempt numbered i + 1
is retryDelay * 2 ^ i. -/
theorem executeRequest_retry_bound {Emb : Type} (opts : MCPOptions)
    (req : AIRequest) (fetchAt : Nat → FetchOutcome) (sim : Emb → Emb → Rat)
    (embedOf : String → Emb) (now : Nat) (exact : AICacheState AIResponse)
    (sem : List (String × SemanticEntry Emb)) :
    (executeRequest opts req fetchAt sim embedOf now exact sem 0).providerCalls
        ≤ 1 + opts.maxRetries ∧
      (executeRequest opts req fetchAt sim embedOf now exact sem 0).delays =
        (List.range (executeRequest opts req fetchAt sim embedOf now exact sem
          0).delays.length).map (fun i => opts.retryDelay * 2 ^ i) ∧
      ({} : MCPOptions).maxRetries = 3 ∧ ({} : MCPOptions).retryDelay = 1000 := by
  obtain ⟨h1, h2⟩ := executeRequest_trace opts req fetchAt sim embedOf now
    exact sem 0
  refine ⟨by simpa using h1, ?_, rfl, rfl⟩
  conv_lhs => rw [h2]
  refine List.map_congr_left ?_
  intro i hi
  simp

/-- All provider attempts failing with empty caches: the recursion makes
exactly 1 + (maxRetries - retryCount) calls and surfaces one error
Response. -/
theorem executeRequest_allFail {Emb : Type} (opts : MCPOptions)
    (req : AIRequest) (fetchAt : Nat → FetchOutcome) (sim : Emb → Emb → Rat)
    (embedOf : String → Emb) (now : Nat)
    (hf : ∀ i, (fetchAt i).isOk = false) :
    ∀ (exact : AICacheState AIResponse)
      (sem : List (String × SemanticEntry Emb)) (rc : Nat),
      exact.entries = [] → sem = [] →
      (executeRequest opts req fetchAt sim embedOf now exact sem
          rc).providerCalls = 1 + (opts.maxRetries - rc) ∧
        (executeRequest opts req fetchAt sim embedOf now exact sem
          rc).result.response.success = false ∧
        (executeRequest opts req fetchAt sim embedOf now exact sem
          rc).result.response.error.isSome = true ∧
        (executeRequest opts req fetchAt sim embedOf now exact sem
          rc).result.cacheHit = false := by
  intro exact sem rc
  induction exact, sem, rc using executeRequest.induct opts req fetchAt sim
    embedOf now with
  | case1 exact sem rc cc c similarity hcc =>
    intro hx hs
    have hccv : cc = checkCaches opts req exact sem sim embedOf now := rfl
    rw [hccv] at hcc
    subst hs
    rw [checkCaches_empty opts req exact sim embedOf now hx] at hcc
    cases hcc
  | case2 exact sem rc cc hnone response hok =>
    intro hx hs
    obtain ⟨m, hm⟩ := callProviderAPI_error_of_not_ok req
      (getProviderForModel req.model) (fetchAt rc) (hf rc)
    rw [hm] at hok
    cases hok
  | case3 exact sem rc cc hnone e herr hlt ih =>
    intro hx hs
    have hccv : cc = checkCaches opts req exact sem sim embedOf now := rfl
    rw [hccv] at hnone ih
    subst hs
    have hcc0 := checkCaches_empty opts req exact sim embedOf now hx
    obtain ⟨hres, hcalls, -⟩ := executeRequest_retry_projs opts req fetchAt
      sim embedOf now exact [] rc e hnone herr hlt
    rw [hcc0] at ih hres hcalls
    obtain ⟨ih1, ih2, ih3, ih4⟩ := ih hx rfl
    refine ⟨?_, ?_, ?_, ?_⟩
    · rw [hcalls, ih1]
      omega
    · rw [hres]
      exact ih2
    · rw [hres]
      exact ih3
    · rw [hres]
      exact ih4
  | case4 exact sem rc cc hnone e herr hge =>
    intro hx hs
    have hccv : cc = checkCaches opts req exact sem sim embedOf now := rfl
    rw [hccv] at hnone
    subst hs
    obtain ⟨hres, hcalls, -⟩ := executeRequest_exhaust_projs opts req fetchAt
      sim embedOf now exact [] rc e hnone herr hge
    refine ⟨?_, ?_, ?_, ?_⟩
    · rw [hcalls]
      omega
    · simp [hres, errorResponse]
    · simp [hres, errorResponse]
    · simp [hres]

/-- C2 (amended): executeRequest is a total function returning exactly one
MCPResponse, and on the execution path every failure — including retry
exhaustion — is surfaced as a Response with success = false and a populated
error rather than a throw. The claim as stated is false only for the queue
timeout path: the timeout callback registered by enqueue rejects the
returned promise with Error Request timeout instead of resolving it with a
Response (see the counterexample). -/
theorem executeRequest_surfaces_failure {Emb : Type} (opts : MCPOptions)
    (req : AIRequest) (fetchAt : Nat → FetchOutcome) (sim : Emb → Emb → Rat)
    (embedOf : String → Emb) (now : Nat) (exact : AICacheState AIResponse)
    (sem : List (String × SemanticEntry Emb)) (hx : exact.entries = [])
    (hs : sem = []) (hf : ∀ i, (fetchAt i).isOk = false) :
    (executeRequest opts req fetchAt sim embedOf now exact sem
        0).result.response.success = false ∧
      (executeRequest opts req fetchAt sim embedOf now exact sem
        0).result.response.error.isSome = true ∧
      (executeRequest opts req fetchAt sim embedOf now exact sem
        0).result.cacheHit = false :=
  (executeRequest_allFail opts req fetchAt sim embedOf now hf exact sem 0
    hx hs).2

/-- C2 counterexample: when the timeout fires while the request is still
queued, the promise returned by enqueue is rejected with Error Request
timeout — the caller observes a rejection, not a Response with
success = false. -/
theorem enqueue_timeout_rejects :
    (enqueueTimeoutFires timeoutQueue "req_1").2 =
        some (SettledOutcome.rejected "Request timeout") ∧
      ((enqueueTimeoutFires timeoutQueue "req_1").2.getD
        (SettledOutcome.rejected "")).isRejected = true ∧
      (enqueueTimeoutFires timeoutQueue "req_1").1 = [] :=
  ⟨rfl, rfl, rfl⟩

/-- Witness for the amended C2 theorem at the always-401 provider. -/
theorem executeRequest_surfaces_failure_witness :
    (executeRequest {} failReq failFetch (fun (_ _ : Unit) => (0 : Rat))
        (fun _ => ()) 0 { entries := [] } [] 0).result.response.success
        = false ∧
      (executeRequest {} failReq failFetch (fun (_ _ : Unit) => (0 : Rat))
        (fun _ => ()) 0 { entries := [] } [] 0).result.response.error.isSome
        = true ∧
      (executeRequest {} failReq failFetch (fun (_ _ : Unit) => (0 : Rat))
        (fun _ => ()) 0 { entries := [] } [] 0).result.cacheHit = false :=
  executeRequest_surfaces_failure {} failReq failFetch
    (fun _ _ => (0 : Rat)) (fun _ => ()) 0 { entries := [] } [] rfl rfl
    (fun _ => rfl)

/-- C5 (amended): the executor does not classify provider failures — the
thrown error of callProviderAPI is the same for every non-ok HTTP status —
so every failure, 4xx included, is retried while retryCount < maxRetries;
with all attempts failing the provider is invoked exactly 1 + maxRetries
times, not once. -/
theorem executeRequest_retries_all_failures {Emb : Type} (opts : MCPOptions)
    (req : AIRequest) (fetchAt : Nat → FetchOutcome) (sim : Emb → Emb → Rat)
    (embedOf : String → Emb) (now : Nat) (exact : AICacheState AIResponse)
    (sem : List (String × SemanticEntry Emb)) (hx : exact.entries = [])
    (hs : sem = []) (hf : ∀ i, (fetchAt i).isOk = false) :
    (executeRequest opts req fetchAt sim embedOf now exact sem
        0).providerCalls = 1 + opts.maxRetries := by
  have h := (executeRequest_allFail opts req fetchAt sim embedOf now hf exact
    sem 0 hx hs).1
  simpa using h

/-- C5 counterexample: a provider failing every attempt with HTTP 401 (a 4xx
authentication error) under the default options is invoked 4 times with
backoff delays 1000, 2000 and 4000 before the error is surfaced — not
invoked exactly once as the claim states. -/
theorem executeRequest_401_retried :
    failRun.providerCalls = 4 ∧ failRun.delays = [1000, 2000, 4000] ∧
      failRun.result.response.success = false ∧
      failRun.result.response.error = some "Invalid API key" := by
  refine ⟨?_, ?_, ?_, ?_⟩ <;>
    simp [failRun, executeRequest, checkCaches, mcpParamsOf,
      generateExactCacheKey, AICache.get, mapGet, findSimilar, findSimilarLoop,
      callProviderAPI, getProviderForModel, SmartRouter.getProviderForModel,
      modelsMetadata, failReq, failFetch, errorResponse]

/-- Witness for the amended C5 theorem at the always-401 provider with the
default maxRetries of 3. -/
theorem executeRequest_retries_all_failures_witness :
    (executeRequest {} failReq failFetch (fun (_ _ : Unit) => (0 : Rat))
        (fun _ => ()) 0 { entries := [] } [] 0).providerCalls =
      1 + ({} : MCPOptions).maxRetries :=
  executeRequest_retries_all_failures {} failReq failFetch
    (fun _ _ => (0 : Rat)) (fun _ => ()) 0 { entries := [] } [] rfl rfl
    (fun _ => rfl)

end AiCadSdk
